import Mathlib

/-!
Verification development for the dellemc PowerMax/Unity ansible modules.

Shallow embedding of the reconciliation logic of
  dellemc_powermax_hostgroup.py, dellemc_powermax_maskingview.py,
  dellemc_unity_consistencygroup.py and dellemc_unity_volume.py.

Conventions of the embedding:
  * Vendor SDK calls that mutate the array are recorded in a call trace and
    modelled as always succeeding (a vendor-side exception is external
    nondeterminism that the modules merely relay via fail_json); read calls
    (get_host, get_hostgroup, ...) are modelled as pure lookups in an
    explicit array-state record.
  * `exit_json` / `fail_json` terminate a run; they are modelled by the
    `RunOutcome` type.
  * Python dict/str truthiness is modelled explicitly at each use site.
-/

/-- Python values that can be supplied for a host-flag entry: a bool or a
string (the module documents true / false / "unset"). -/
inductive PVal
  | pb (b : Bool)
  | ps (s : String)
deriving DecidableEq

/-- `v in ['unset', 'Unset']` (Python membership; a bool is never equal to
these strings). -/
def PVal.isUnsetStr : PVal → Bool
  | .ps s => s == "unset" || s == "Unset"
  | .pb _ => false

/-- `v is False or v in ['false', 'False']`. -/
def PVal.isFalseLike : PVal → Bool
  | .pb b => !b
  | .ps s => s == "false" || s == "False"

/-- `v is True or v in ['True', 'true']`. -/
def PVal.isTrueLike : PVal → Bool
  | .pb b => b
  | .ps s => s == "True" || s == "true"

/-- `v is False or v in ['unset', 'Unset', 'false', 'False']` (the
consistent_lun disable test of the create path); the modify path uses the
same value set written as ['False', 'false', 'unset', 'Unset']. -/
def PVal.isClDisable : PVal → Bool
  | .pb b => !b
  | .ps s => s == "unset" || s == "Unset" || s == "false" || s == "False"

/-- The `state` module parameter; choices ['present', 'absent'] are enforced
by the declared argument spec. -/
inductive DState
  | present
  | absent
deriving DecidableEq

/-- The membership directive (`host_state` / `vol_state`); choices
['present-in-group', 'absent-in-group']. -/
inductive GDirective
  | presentInGroup
  | absentInGroup
deriving DecidableEq

/-- Terminal outcome of a module run: `exit_json(changed=...)` or
`fail_json(msg=...)`. -/
inductive RunOutcome
  | exited (changed : Bool)
  | failed (msg : String)
deriving DecidableEq

namespace HG

/-- One host-flag entry of the PyU4V payload: {'enabled': _, 'override': _}. -/
structure FlagSetting where
  enabled : Bool
  override : Bool
deriving DecidableEq

/-- `_set_to_enable`: {'enabled': True, 'override': True}. -/
def set_to_enable : FlagSetting := ⟨true, true⟩

/-- `_set_to_disable`: {'enabled': False, 'override': True}. -/
def set_to_disable : FlagSetting := ⟨false, true⟩

/-- `_set_to_default`: {'enabled': False, 'override': False}. -/
def set_to_default : FlagSetting := ⟨false, false⟩

/-- The host-flags payload over the fixed `host_flags_list` of the module
(eight tri-state flags) plus the boolean consistent_lun entry. -/
structure HostFlags where
  volume_set_addressing : FlagSetting
  environ_set : FlagSetting
  disable_q_reset_on_ua : FlagSetting
  openvms : FlagSetting
  avoid_reset_broadcast : FlagSetting
  scsi_3 : FlagSetting
  spc2_protocol_version : FlagSetting
  scsi_support1 : FlagSetting
  consistent_lun : Bool
deriving DecidableEq

/-- All flags at default, consistent_lun disabled
(`_create_default_host_flags_dict`). -/
def defaultHostFlags : HostFlags :=
  ⟨set_to_default, set_to_default, set_to_default, set_to_default,
   set_to_default, set_to_default, set_to_default, set_to_default, false⟩

/-- The `host_flags` dict supplied by the caller, restricted to the nine
documented keys; `none` models an absent key. -/
structure ReceivedFlags where
  volume_set_addressing : Option PVal
  environ_set : Option PVal
  disable_q_reset_on_ua : Option PVal
  openvms : Option PVal
  avoid_reset_broadcast : Option PVal
  scsi_3 : Option PVal
  spc2_protocol_version : Option PVal
  scsi_support1 : Option PVal
  consistent_lun : Option PVal
deriving DecidableEq

/-- The empty `host_flags` dict. -/
def emptyReceived : ReceivedFlags :=
  ⟨none, none, none, none, none, none, none, none, none⟩

/-- Python dict truthiness of the received host_flags. -/
def ReceivedFlags.nonempty (r : ReceivedFlags) : Bool :=
  r.volume_set_addressing.isSome || r.environ_set.isSome ||
  r.disable_q_reset_on_ua.isSome || r.openvms.isSome ||
  r.avoid_reset_broadcast.isSome || r.scsi_3.isSome ||
  r.spc2_protocol_version.isSome || r.scsi_support1.isSome ||
  r.consistent_lun.isSome

/-- Per-flag rule of `_create_host_flags_dict`: absent or 'unset'/'Unset'
maps to default, `False`/'false'/'False' to disable, anything else to
enable. -/
def createFlagRule (v? : Option PVal) : FlagSetting :=
  match v? with
  | none => set_to_default
  | some v =>
    if v.isUnsetStr then set_to_default
    else if v.isFalseLike then set_to_disable
    else set_to_enable

/-- consistent_lun rule of `_create_host_flags_dict`: absent, `False` or any
of 'unset'/'Unset'/'false'/'False' disables, anything else enables. -/
def createClRule (v? : Option PVal) : Bool :=
  match v? with
  | none => false
  | some v => if v.isClDisable then false else true

/-- `_create_host_flags_dict(received)` over the fixed flag list. -/
def create_host_flags_dict (r : ReceivedFlags) : HostFlags where
  volume_set_addressing := createFlagRule r.volume_set_addressing
  environ_set := createFlagRule r.environ_set
  disable_q_reset_on_ua := createFlagRule r.disable_q_reset_on_ua
  openvms := createFlagRule r.openvms
  avoid_reset_broadcast := createFlagRule r.avoid_reset_broadcast
  scsi_3 := createFlagRule r.scsi_3
  spc2_protocol_version := createFlagRule r.spc2_protocol_version
  scsi_support1 := createFlagRule r.scsi_support1
  consistent_lun := createClRule r.consistent_lun

/-- Per-flag rule of the loop in `modify_host_flags`: a supplied value that
is `True`/'True'/'true' enables, `False`/'false'/'False' disables, any other
supplied value resets to default; an absent flag keeps the current
setting (the loop runs over the received dict only, on a deep copy of the
current flags). -/
def modifyFlagRule (cur : FlagSetting) (v? : Option PVal) : FlagSetting :=
  match v? with
  | none => cur
  | some v =>
    if v.isTrueLike then set_to_enable
    else if v.isFalseLike then set_to_disable
    else set_to_default

/-- consistent_lun rule of `modify_host_flags`. -/
def modifyClRule (cur : Bool) (v? : Option PVal) : Bool :=
  match v? with
  | none => cur
  | some v => if v.isClDisable then false else true

/-- The new flags dict computed by `modify_host_flags` from the received
dict and the recreated current flags. -/
def applyModifyFlags (r : ReceivedFlags) (cur : HostFlags) : HostFlags where
  volume_set_addressing := modifyFlagRule cur.volume_set_addressing r.volume_set_addressing
  environ_set := modifyFlagRule cur.environ_set r.environ_set
  disable_q_reset_on_ua := modifyFlagRule cur.disable_q_reset_on_ua r.disable_q_reset_on_ua
  openvms := modifyFlagRule cur.openvms r.openvms
  avoid_reset_broadcast := modifyFlagRule cur.avoid_reset_broadcast r.avoid_reset_broadcast
  scsi_3 := modifyFlagRule cur.scsi_3 r.scsi_3
  spc2_protocol_version := modifyFlagRule cur.spc2_protocol_version r.spc2_protocol_version
  scsi_support1 := modifyFlagRule cur.scsi_support1 r.scsi_support1
  consistent_lun := modifyClRule cur.consistent_lun r.consistent_lun

/-- A host group on the array: its id (the name), its member hosts, and its
flags.  `get_host` output (enabled_flags / disabled_flags / consistent_lun)
determines the flag dict bijectively, so the array state stores the
`HostFlags` payload directly and `_recreate_host_flag_dict` is the
identity of this representation. -/
structure HGroup where
  hostGroupId : String
  hosts : List String
  flags : HostFlags
deriving DecidableEq

/-- The array state seen by the host-group module: the host groups and the
hosts that exist on the array (`get_host` succeeds exactly on those). -/
structure HGArray where
  groups : List HGroup
  hostsOnArray : List String
deriving DecidableEq

/-- `get_hostgroup`: resolve a name to the host group, `None` when absent. -/
def HGArray.getHostgroup (st : HGArray) (name : String) : Option HGroup :=
  st.groups.find? (fun g => g.hostGroupId == name)

/-- The external mutating calls the host-group module can issue. -/
inductive HGCall
  | createEmpty (name : String) (flags : HostFlags)
  | createWithHosts (name : String) (flags : HostFlags) (hosts : List String)
  | addHosts (name : String) (hosts : List String)
  | removeHosts (name : String) (hosts : List String)
  | modifyFlags (name : String) (flags : HostFlags)
  | renameGroup (name newName : String)
  | deleteGroup (name : String)
deriving DecidableEq

/-- Update every group matching a name (group ids are unique on a real
array, but the model does not need that invariant). -/
def updateGroups (gs : List HGroup) (name : String) (f : HGroup → HGroup) :
    List HGroup :=
  gs.map (fun g => if g.hostGroupId == name then f g else g)

/-- Effect of a successful mutating call on the array state. -/
def HGArray.applyCall (st : HGArray) (c : HGCall) : HGArray :=
  match c with
  | .createEmpty n f => ⟨st.groups ++ [⟨n, [], f⟩], st.hostsOnArray⟩
  | .createWithHosts n f hs => ⟨st.groups ++ [⟨n, hs, f⟩], st.hostsOnArray⟩
  | .addHosts n hs =>
    ⟨updateGroups st.groups n (fun g => ⟨g.hostGroupId, g.hosts ++ hs, g.flags⟩),
     st.hostsOnArray⟩
  | .removeHosts n hs =>
    ⟨updateGroups st.groups n
       (fun g => ⟨g.hostGroupId, g.hosts.filter (fun h => decide (h ∉ hs)), g.flags⟩),
     st.hostsOnArray⟩
  | .modifyFlags n f =>
    ⟨updateGroups st.groups n (fun g => ⟨g.hostGroupId, g.hosts, f⟩),
     st.hostsOnArray⟩
  | .renameGroup n n2 =>
    ⟨updateGroups st.groups n (fun g => ⟨n2, g.hosts, g.flags⟩),
     st.hostsOnArray⟩
  | .deleteGroup n =>
    ⟨st.groups.filter (fun g => decide (g.hostGroupId ≠ n)), st.hostsOnArray⟩

/-- The module parameters (management-host parameters are out of scope). -/
structure HGParams where
  hostgroup_name : String
  hosts : Option (List String)
  state : DState
  host_state : Option GDirective
  host_flags : ReceivedFlags
  new_name : Option String
deriving DecidableEq

/-- Intermediate result of one block of `perform_module_operation`:
continue with the accumulated changed flag, or halt (exit_json/fail_json)
immediately.  The call list holds the mutating calls issued so far. -/
inductive HGStep
  | cont (changed : Bool) (st : HGArray) (calls : List HGCall)
  | halt (outcome : RunOutcome) (st : HGArray) (calls : List HGCall)
deriving DecidableEq

/-- The calls recorded in a step. -/
def HGStep.callsOf : HGStep → List HGCall
  | .cont _ _ tr => tr
  | .halt _ _ tr => tr

/-- Prepend already-issued calls to a later step's trace. -/
def HGStep.withPrefix (tr : List HGCall) : HGStep → HGStep
  | .cont c st tr2 => .cont c st (tr ++ tr2)
  | .halt o st tr2 => .halt o st (tr ++ tr2)

/-- Sequencing of blocks: a halt skips everything after it. -/
def HGStep.seq : HGStep → (Bool → HGArray → HGStep) → HGStep
  | .halt o st tr, _ => .halt o st tr
  | .cont c st tr, f => (f c st).withPrefix tr

/-- `_get_add_hosts`: `set(existing + requested) - set(existing)`, i.e. the
requested hosts that are not yet members (as a list; the Python set
difference fixes no order or multiplicity and no caller depends on them). -/
def get_add_hosts (existing requested : List String) : List String :=
  requested.filter (fun h => decide (h ∉ existing))

/-- `_get_remove_hosts`: `set(existing).intersection(set(requested))`. -/
def get_remove_hosts (existing requested : List String) : List String :=
  existing.filter (fun h => decide (h ∈ requested))

/-- `create_hostgroup`: an empty group is created when hosts are absent or
empty, or host_state is unset or 'absent-in-group'; otherwise every host is
looked up first and a missing one fails the run before the create call.
The flags payload passed to the SDK is the dict built by
`_create_host_flags_dict` (for a falsy host_flags dict the payload is empty
and the array applies the same all-default flags). -/
def create_hostgroup (st : HGArray) (p : HGParams) : HGStep :=
  match p.hosts, p.host_state with
  | some (h :: hs), some .presentInGroup =>
    let hostsL := h :: hs
    match hostsL.find? (fun x => decide (x ∉ st.hostsOnArray)) with
    | some missing =>
      .halt (.failed ("Create host group " ++ p.hostgroup_name ++
        " failed as the host " ++ missing ++ " does not exist")) st []
    | none =>
      let c := HGCall.createWithHosts p.hostgroup_name
        (create_host_flags_dict p.host_flags) hostsL
      .cont true (st.applyCall c) [c]
  | _, _ =>
    let c := HGCall.createEmpty p.hostgroup_name
      (create_host_flags_dict p.host_flags)
    .cont true (st.applyCall c) [c]

/-- The existing-member list that `add_hosts_to_hostgroup` and
`remove_hosts_from_hostgroup` extract from the re-fetched group. -/
def existingHostsOf (st : HGArray) (name : String) : List String :=
  match st.getHostgroup name with
  | some g => g.hosts
  | none => []

/-- `add_hosts_to_hostgroup`: re-fetch the group, return False when the
requested hosts are already a subset of the members, otherwise issue one
modify(add_host_list) call when the computed add list is non-empty. -/
def add_hosts_to_hostgroup (st : HGArray) (name : String)
    (hostsL : List String) : Bool × HGArray × List HGCall :=
  let existing := existingHostsOf st name
  if hostsL ≠ [] ∧ ∀ h ∈ hostsL, h ∈ existing then (false, st, [])
  else
    let addL := get_add_hosts existing hostsL
    if addL.length > 0 then
      let c := HGCall.addHosts name addL
      (true, st.applyCall c, [c])
    else (false, st, [])

/-- `remove_hosts_from_hostgroup`: re-fetch the group, return False when it
has no members, otherwise issue one modify(remove_host_list) call when the
computed remove list is non-empty. -/
def remove_hosts_from_hostgroup (st : HGArray) (name : String)
    (hostsL : List String) : Bool × HGArray × List HGCall :=
  let existing := existingHostsOf st name
  if existing = [] then (false, st, [])
  else
    let remL := get_remove_hosts existing hostsL
    if remL.length > 0 then
      let c := HGCall.removeHosts name remL
      (true, st.applyCall c, [c])
    else (false, st, [])

/-- `modify_host_flags`: recreate the current flags from the re-fetched
group, compute the new dict, and on equality terminate the whole run via
`exit_json(changed=False)`; otherwise issue one modify(host_flags) call.
A missing group would raise an uncaught exception in the Python code
(modelled as a failed run; unreachable from the call site). -/
def modify_host_flags (st : HGArray) (name : String) (r : ReceivedFlags) :
    HGStep :=
  match st.getHostgroup name with
  | none => .halt (.failed ("Got error while getting details of host group "
      ++ name)) st []
  | some g =>
    let current := g.flags
    let newFlags := applyModifyFlags r current
    if newFlags = current then .halt (.exited false) st []
    else
      let c := HGCall.modifyFlags name newFlags
      .cont true (st.applyCall c) [c]

/-- Block 1 of `perform_module_operation`: create when state is 'present',
the group was not found and hostgroup_name is truthy;
`changed = self.create_hostgroup(...)`. -/
def block_create (p : HGParams) (hostgroup : Option HGroup) (st : HGArray) :
    HGStep :=
  if p.state = DState.present ∧ hostgroup = none ∧ p.hostgroup_name ≠ "" then
    create_hostgroup st p
  else .cont false st []

/-- Block 2: add hosts when state is 'present', host_state is
'present-in-group', the originally fetched group is truthy and hosts is a
non-empty list; `changed = add_hosts_to_hostgroup(...) or changed`. -/
def block_add (p : HGParams) (hostgroup : Option HGroup) (c : Bool)
    (st : HGArray) : HGStep :=
  match p.hosts with
  | some hs =>
    if p.state = DState.present ∧ p.host_state = some GDirective.presentInGroup
        ∧ hostgroup ≠ none ∧ hs ≠ [] then
      let r := add_hosts_to_hostgroup st p.hostgroup_name hs
      .cont (r.1 || c) r.2.1 r.2.2
    else .cont c st []
  | none => .cont c st []

/-- Block 3: remove hosts when state is 'present', host_state is
'absent-in-group', the originally fetched group is truthy and hosts is a
non-empty list; `changed = remove_hosts_from_hostgroup(...) or changed`. -/
def block_remove (p : HGParams) (hostgroup : Option HGroup) (c : Bool)
    (st : HGArray) : HGStep :=
  match p.hosts with
  | some hs =>
    if p.state = DState.present ∧ p.host_state = some GDirective.absentInGroup
        ∧ hostgroup ≠ none ∧ hs ≠ [] then
      let r := remove_hosts_from_hostgroup st p.hostgroup_name hs
      .cont (r.1 || c) r.2.1 r.2.2
    else .cont c st []
  | none => .cont c st []

/-- Block 4: modify flags when state is 'present', the originally fetched
group and the host_flags dict are truthy;
`changed = (modify_host_flags(...) or changed)`. -/
def block_flags (p : HGParams) (hostgroup : Option HGroup) (c : Bool)
    (st : HGArray) : HGStep :=
  if p.state = DState.present ∧ hostgroup ≠ none ∧
      p.host_flags.nonempty = true then
    match modify_host_flags st p.hostgroup_name p.host_flags with
    | .halt o st2 tr => .halt o st2 tr
    | .cont r st2 tr => .cont (r || c) st2 tr
  else .cont c st []

/-- Block 5: rename when state is 'present', the originally fetched group
and new_name are truthy, and the fetched group's id differs from new_name;
the Python code assigns `changed = self.rename_hostgroup(...)`, whose value
is True on every non-failing call. -/
def block_rename (p : HGParams) (hostgroup : Option HGroup) (c : Bool)
    (st : HGArray) : HGStep :=
  match p.new_name with
  | some nn =>
    if p.state = DState.present ∧ hostgroup ≠ none ∧ nn ≠ "" then
      match hostgroup with
      | some g =>
        if g.hostGroupId ≠ nn then
          let cl := HGCall.renameGroup p.hostgroup_name nn
          .cont true (st.applyCall cl) [cl]
        else .cont c st []
      | none => .cont c st []
    else .cont c st []
  | none => .cont c st []

/-- Block 6: delete when state is 'absent' and the group was found;
`changed = self.delete_hostgroup(...) or changed`. -/
def block_delete (p : HGParams) (hostgroup : Option HGroup) (c : Bool)
    (st : HGArray) : HGStep :=
  if p.state = DState.absent ∧ hostgroup ≠ none then
    let cl := HGCall.deleteGroup p.hostgroup_name
    .cont (true || c) (st.applyCall cl) [cl]
  else .cont c st []

/-- Final result of a host-group module run. -/
structure HGResult where
  outcome : RunOutcome
  finalSt : HGArray
  calls : List HGCall
deriving DecidableEq

/-- `perform_module_operation` of PowerMaxHostGroup: fetch the group once,
run the six blocks in order (each helper re-fetches as in the source), and
exit with the accumulated changed flag. -/
def perform_module_operation (st0 : HGArray) (p : HGParams) : HGResult :=
  let hostgroup := st0.getHostgroup p.hostgroup_name
  let s := (((((block_create p hostgroup st0).seq
    (block_add p hostgroup)).seq
    (block_remove p hostgroup)).seq
    (block_flags p hostgroup)).seq
    (block_rename p hostgroup)).seq
    (block_delete p hostgroup)
  match s with
  | .halt o st tr => ⟨o, st, tr⟩
  | .cont c st tr => ⟨.exited c, st, tr⟩

end HG

/-- Python string truthiness of an optional string parameter. -/
def strTruthy : Option String → Bool
  | some s => !(s == "")
  | none => false

namespace MV

/-- A masking view on the array; an absent component corresponds to the key
being absent from the REST payload. -/
structure MVEntry where
  maskingViewId : String
  portGroupId : Option String
  storageGroupId : Option String
  hostId : Option String
  hostGroupId : Option String
deriving DecidableEq

/-- The array state seen by the masking-view module. -/
structure MVArray where
  mvs : List MVEntry
deriving DecidableEq

/-- `get_masking_view`: membership in `get_masking_view_list` followed by
the detail fetch. -/
def MVArray.getMV (st : MVArray) (name : String) : Option MVEntry :=
  st.mvs.find? (fun m => m.maskingViewId == name)

/-- The module parameters. -/
structure MVParams where
  mv_name : String
  portgroup_name : Option String
  host_name : Option String
  hostgroup_name : Option String
  sg_name : Option String
  new_mv_name : Option String
  state : DState
deriving DecidableEq

/-- The external mutating calls the masking-view module can issue. -/
inductive MVCall
  | createMV (mv_name pg sg : String) (host hostgroup : Option String)
  | renameMV (old nn : String)
  | deleteMV (name : String)
deriving DecidableEq

/-- Effect of a successful mutating call on the array state. -/
def MVArray.applyCall (st : MVArray) (c : MVCall) : MVArray :=
  match c with
  | .createMV n pg sg h hg => ⟨st.mvs ++ [⟨n, some pg, some sg, h, hg⟩]⟩
  | .renameMV old nn =>
    ⟨st.mvs.map (fun m => if m.maskingViewId == old then
        ⟨nn, m.portGroupId, m.storageGroupId, m.hostId, m.hostGroupId⟩ else m)⟩
  | .deleteMV n => ⟨st.mvs.filter (fun m => decide (m.maskingViewId ≠ n))⟩

/-- The elif chain of `is_mv_changed` that decides whether the supplied
parameters differ from the masking view on the array. -/
def is_mv_changed_flag (mv : MVEntry) (p : MVParams) : Bool :=
  if mv.portGroupId.isSome ∧ p.portgroup_name.isSome ∧
      mv.portGroupId ≠ p.portgroup_name then true
  else if mv.storageGroupId.isSome ∧ p.sg_name.isSome ∧
      mv.storageGroupId ≠ p.sg_name then true
  else if mv.hostId.isSome ∧ p.host_name.isSome ∧
      mv.hostId ≠ p.host_name then true
  else if mv.hostGroupId.isSome ∧ p.hostgroup_name.isSome ∧
      mv.hostGroupId ≠ p.hostgroup_name then true
  else if mv.hostId.isSome ∧ p.hostgroup_name.isSome then true
  else if mv.hostGroupId.isSome ∧ p.host_name.isSome then true
  else false

/-- `create_masking_view`: refuse when host and hostgroup are both given,
or when PG, SG or a host/hostgroup component is missing; otherwise issue
one create call. -/
def create_masking_view (st : MVArray) (p : MVParams) :
    Except String (MVArray × MVCall) :=
  if p.host_name.isSome ∧ p.hostgroup_name.isSome then
    .error ("Failed to create masking view " ++ p.mv_name ++
      ",Please provide either host or hostgroup")
  else
    match p.portgroup_name, p.sg_name with
    | some pg, some sg =>
      if p.host_name = none ∧ p.hostgroup_name = none then
        .error ("Failed to create masking view " ++ p.mv_name ++
          ", Please provide SG, PG and host / host group name to create masking view")
      else
        let c := MVCall.createMV p.mv_name pg sg p.host_name p.hostgroup_name
        .ok (st.applyCall c, c)
    | _, _ =>
      .error ("Failed to create masking view " ++ p.mv_name ++
        ", Please provide SG, PG and host / host group name to create masking view")

/-- `rename_masking_view`: a no-op returning False when the names are
equal, otherwise one rename call returning True. -/
def rename_masking_view (st : MVArray) (mv_name new_mv_name : String) :
    Bool × MVArray × List MVCall :=
  if mv_name = new_mv_name then (false, st, [])
  else
    let c := MVCall.renameMV mv_name new_mv_name
    (true, st.applyCall c, [c])

/-- Message of the AnsibleModule-level mutual-exclusion failure for
host_name / hostgroup_name (declared in the module's argument spec and
enforced before any module code runs). -/
def mutexMsg : String :=
  "parameters are mutually exclusive: host_name|hostgroup_name"

/-- Message of the `is_mv_changed` failure. -/
def mvChangedMsg (mvId : String) : String :=
  "One or more of parameters (PG, SG, Host/Host Group) provided for the MV "
  ++ mvId ++ " differ from the state of the MV on the array."

/-- Final result of a masking-view module run. -/
structure MVResult where
  outcome : RunOutcome
  finalSt : MVArray
  calls : List MVCall
deriving DecidableEq

/-- The rename block: state 'present', an existing view and a truthy
new_mv_name. -/
def renameBlock (st0 : MVArray) (p : MVParams) (mv? : Option MVEntry) :
    Bool × MVArray × List MVCall :=
  if p.state = DState.present ∧ mv?.isSome ∧ strTruthy p.new_mv_name then
    match p.new_mv_name with
    | some nn => rename_masking_view st0 p.mv_name nn
    | none => (false, st0, [])
  else (false, st0, [])

/-- The delete block: state 'absent' and an existing view. -/
def deleteBlock (st1 : MVArray) (p : MVParams) (mv? : Option MVEntry) :
    Bool × MVArray × List MVCall :=
  if p.state = DState.absent ∧ mv?.isSome then
    let c := MVCall.deleteMV p.mv_name
    (true, st1.applyCall c, [c])
  else (false, st1, [])

/-- The create / rename / delete blocks of `perform_module_operation`
(create requires a falsy new_mv_name, rename an existing view and a truthy
new_mv_name, delete state 'absent'; the three guards are pairwise
exclusive). -/
def mvBlocks (st0 : MVArray) (p : MVParams) (mv? : Option MVEntry) :
    MVResult :=
  if p.state = DState.present ∧ mv? = none ∧ strTruthy p.new_mv_name = false
      ∧ p.mv_name ≠ "" then
    match create_masking_view st0 p with
    | .error m => ⟨.failed m, st0, []⟩
    | .ok (st1, c) => ⟨.exited true, st1, [c]⟩
  else
    let ren := renameBlock st0 p mv?
    let del := deleteBlock ren.2.1 p mv?
    ⟨.exited (ren.1 || del.1), del.2.1, ren.2.2 ++ del.2.2⟩

/-- `perform_module_operation` of PowerMaxMaskingView: the declared
mutually-exclusive constraint fails the run at module init; otherwise the
view is fetched, `is_mv_changed` may fail the run, and the
create/rename/delete blocks run in order. -/
def perform_module_operation (st0 : MVArray) (p : MVParams) : MVResult :=
  if p.host_name.isSome ∧ p.hostgroup_name.isSome then ⟨.failed mutexMsg, st0, []⟩
  else
    match st0.getMV p.mv_name with
    | some mv =>
      if is_mv_changed_flag mv p then
        ⟨.failed (mvChangedMsg mv.maskingViewId), st0, []⟩
      else mvBlocks st0 p (some mv)
    | none => mvBlocks st0 p none

end MV

namespace CG

/-- A volume (LUN) on the Unity array; `cg` is the id of the owning
consistency group, if any. -/
structure UnityVol where
  id : String
  name : String
  cg : Option String
deriving DecidableEq

/-- A consistency group on the Unity array.  `luns = []` models
`luns is None` (an empty group); `relocation_policy` stores the tiering
policy name (the code compares the segment after the dot of
details['relocation_policy']). -/
structure CGEntry where
  id : String
  name : String
  description : Option String
  snap_sched_name : Option String
  luns : List String
  relocation_policy : Option String
deriving DecidableEq

/-- The array state seen by the consistency-group module. -/
structure CGArray where
  cgs : List CGEntry
  vols : List UnityVol
deriving DecidableEq

def CGArray.findById (st : CGArray) (i : String) : Option CGEntry :=
  st.cgs.find? (fun c => c.id == i)

def CGArray.findByName (st : CGArray) (n : String) : Option CGEntry :=
  st.cgs.find? (fun c => c.name == n)

/-- `get_details` via `unity_conn.get_cg(_id=cg_id, name=cg_name)`:
resolved by id when an id is supplied, else by name. -/
def get_details (st : CGArray) (cg_id cg_name : Option String) :
    Option CGEntry :=
  match cg_id with
  | some i => st.findById i
  | none =>
    match cg_name with
    | some n => st.findByName n
    | none => none

/-- One entry of the `volumes` list parameter (a dict with key vol_id
and/or vol_name). -/
inductive VolSpec
  | byId (i : String)
  | byName (n : String)
  | both (n i : String)
  | neither
deriving DecidableEq

/-- Python truthiness of the volumes parameter. -/
def volsTruthy : Option (List VolSpec) → Bool
  | some (_ :: _) => true
  | _ => false

def CGArray.findVol (st : CGArray) (vol_id vol_name : Option String) :
    Option UnityVol :=
  match vol_id with
  | some i => st.vols.find? (fun v => v.id == i)
  | none =>
    match vol_name with
    | some n => st.vols.find? (fun v => v.name == n)
    | none => none

/-- `get_volume_details`: resolve the volume, fail when it does not exist
or is owned by a consistency group other than the one addressed by the
original cg_id/cg_name module parameters; return the volume id. -/
def get_volume_details (st : CGArray) (pcg_id pcg_name : Option String)
    (vol_name vol_id : Option String) : Except String String :=
  let id_or_name := match vol_id with
    | some i => i
    | none => vol_name.getD ""
  match st.findVol vol_id vol_name with
  | none => .error ("The volume " ++ id_or_name ++ " not found.")
  | some lun =>
    let cg_details := get_details st pcg_id pcg_name
    match lun.cg with
    | none => .ok lun.id
    | some owner =>
      let ownerName := (((st.cgs.find? (fun c => c.id == owner)).map
        (fun c => c.name)).getD owner)
      let emsg := "The volume " ++ id_or_name ++
        " is already part of consistency group " ++ ownerName
      match cg_details with
      | none => .error emsg
      | some cgd => if owner ≠ cgd.id then .error emsg else .ok lun.id

/-- `validate_volumes` on one entry (the failure messages carry the
offending volume dict in the source; the dict rendering is elided here). -/
def validate_volume (st : CGArray) (pcg_id pcg_name : Option String)
    (v : VolSpec) : Option String :=
  match v with
  | .both _ _ => some ("Both name and id are found for volume. No action"
      ++ " would be taken. Please specify either name or id.")
  | .byId i =>
    if i.trim = "" then some "vol_id is blank. Please specify valid vol_id."
    else
      match get_volume_details st pcg_id pcg_name none (some i) with
      | .error m => some m
      | .ok _ => none
  | .byName n =>
    if n.trim = "" then some "vol_name is blank. Please specify valid vol_name."
    else
      match get_volume_details st pcg_id pcg_name (some n) none with
      | .error m => some m
      | .ok _ => none
  | .neither => some "Expected either vol_name or vol_id, found neither for volume"

/-- `validate_volumes`: first failing entry aborts the run. -/
def validate_volumes (st : CGArray) (pcg_id pcg_name : Option String) :
    List VolSpec → Option String
  | [] => none
  | v :: vs =>
    match validate_volume st pcg_id pcg_name v with
    | some m => some m
    | none => validate_volumes st pcg_id pcg_name vs

/-- The module parameters. -/
structure CGParams where
  cg_name : Option String
  cg_id : Option String
  description : Option String
  volumes : Option (List VolSpec)
  snap_schedule : Option String
  new_cg_name : Option String
  tiering_policy : Option String
  vol_state : Option GDirective
  state : DState
deriving DecidableEq

/-- `is_cg_modified`: tiering policy on an empty group fails; the
description / snap-schedule / relocation-policy comparisons decide whether
a modify is needed. -/
def is_cg_modified (cg : CGEntry) (p : CGParams) : Except String Bool :=
  if strTruthy p.tiering_policy = true ∧ cg.luns = [] ∧ p.volumes = none then
    .error "The system cannot assign a tiering policy to an empty Consistency group."
  else
    let m1 : Bool := decide ((cg.description.isSome ∧ p.description.isSome ∧
        cg.description ≠ p.description) ∨
      (cg.description = none ∧ p.description.isSome))
    let m2 : Bool := decide ((cg.snap_sched_name.isSome ∧ p.snap_schedule.isSome ∧
        cg.snap_sched_name ≠ p.snap_schedule) ∨
      (cg.snap_sched_name = none ∧ strTruthy p.snap_schedule = true))
    let modified1 : Bool := m1 || m2
    let modified2 : Bool :=
      match cg.relocation_policy with
      | some pol =>
        if p.tiering_policy.isSome ∧ some pol ≠ p.tiering_policy then true
        else modified1
      | none => modified1
    .ok modified2

/-- The external mutating calls the consistency-group module can issue
(each corresponds to one cg/lun modify, create or delete SDK call). -/
inductive CGCall
  | createCG (name : String) (description snap_sched : Option String)
  | deleteCG (name : String)
  | modifyAddLuns (name : String) (ids : List String) (tiering : Option String)
  | modifyRemoveLuns (name : String) (ids : List String)
  | renameCG (name nn : String)
  | modifyCG (name : String) (description snap_sched tiering : Option String)
deriving DecidableEq

def updateCGs (cs : List CGEntry) (name : String) (f : CGEntry → CGEntry) :
    List CGEntry :=
  cs.map (fun c => if c.name == name then f c else c)

/-- Effect of a successful mutating call on the array state (a fresh id
assigned by the array is modelled as the group's name; a snap-schedule
argument of "" detaches the schedule, as the modify wrappers translate ""
to a name of None). -/
def CGArray.applyCall (st : CGArray) (c : CGCall) : CGArray :=
  match c with
  | .createCG n d ss =>
    ⟨st.cgs ++ [⟨n, n, d, (match ss with | some s => if s = "" then none else some s | none => none), [], none⟩], st.vols⟩
  | .deleteCG n => ⟨st.cgs.filter (fun c => decide (c.name ≠ n)), st.vols⟩
  | .modifyAddLuns n ids t =>
    let cgid := ((st.cgs.find? (fun c => c.name == n)).map (fun c => c.id)).getD n
    ⟨updateCGs st.cgs n (fun c => ⟨c.id, c.name, c.description, c.snap_sched_name,
        c.luns ++ ids,
        (match t with | some x => some x | none => c.relocation_policy)⟩),
     st.vols.map (fun v => if v.id ∈ ids then ⟨v.id, v.name, some cgid⟩ else v)⟩
  | .modifyRemoveLuns n ids =>
    ⟨updateCGs st.cgs n (fun c => ⟨c.id, c.name, c.description, c.snap_sched_name,
        c.luns.filter (fun i => decide (i ∉ ids)), c.relocation_policy⟩),
     st.vols.map (fun v => if v.id ∈ ids then ⟨v.id, v.name, none⟩ else v)⟩
  | .renameCG n nn =>
    ⟨updateCGs st.cgs n (fun c => ⟨c.id, nn, c.description, c.snap_sched_name,
        c.luns, c.relocation_policy⟩), st.vols⟩
  | .modifyCG n d ss t =>
    ⟨updateCGs st.cgs n (fun c => ⟨c.id, c.name,
        (match d with | some x => some x | none => c.description),
        (match ss with
         | some s => if s = "" then none else some s
         | none => c.snap_sched_name),
        c.luns,
        (match t with | some x => some x | none => c.relocation_policy)⟩), st.vols⟩

/-- One step of the dict-splitting loop of add/remove_volumes. -/
def splitStep (acc : List String × List String) (v : VolSpec) :
    List String × List String :=
  match v with
  | .byId i => if i ∈ acc.1 then acc else (acc.1 ++ [i], acc.2)
  | .both _ i => if i ∈ acc.1 then acc else (acc.1 ++ [i], acc.2)
  | .byName n => if n ∈ acc.2 then acc else (acc.1, acc.2 ++ [n])
  | .neither => acc

/-- The first loop of add/remove_volumes: split the volume dicts into a
deduplicated vol_id list and vol_name list (a dict with both keys goes to
the id list; `validate_volumes` rejects it earlier on the module paths). -/
def splitSpecs (vols : List VolSpec) : List String × List String :=
  vols.foldl splitStep ([], [])

/-- The existing member-id list that add/remove_volumes_from_cg extract
from the re-fetched group properties. -/
def existingLunsOf (st : CGArray) (cg_name : String) : List String :=
  match st.findByName cg_name with
  | some c => c.luns
  | none => []

/-- `add_volumes_to_cg`: re-fetch the member ids, resolve the requested
volumes (names first, then ids), collect those not already members, and
return False without any call when that list is empty; otherwise issue one
modify(lun_add) call. -/
def add_volumes_to_cg (st : CGArray) (pcg_id pcg_name : Option String)
    (cg_name : String) (vols : List VolSpec) (tiering : Option String) :
    Except String (Bool × CGArray × List CGCall) := do
  let idsFromNames ← (splitSpecs vols).2.foldlM (fun acc n => do
    let i ← get_volume_details st pcg_id pcg_name (some n) none
    if i ≠ "" ∧ i ∉ existingLunsOf st cg_name ∧ i ∉ acc then
      pure (acc ++ [i])
    else pure acc) []
  let idsAll ← (splitSpecs vols).1.foldlM (fun acc i => do
    let vbi ← get_volume_details st pcg_id pcg_name none (some i)
    if vbi ∉ existingLunsOf st cg_name ∧ vbi ∉ acc then pure (acc ++ [vbi])
    else pure acc) idsFromNames
  if idsAll.length = 0 then return (false, st, [])
  else
    return (true, st.applyCall (CGCall.modifyAddLuns cg_name idsAll tiering),
      [CGCall.modifyAddLuns cg_name idsAll tiering])

/-- `remove_volumes_from_cg`: re-fetch the member ids, resolve the
requested names, collect the requested ids/resolved ids that are members
(by-id entries are checked against membership only, with no array lookup),
and return False without any call when that list is empty; otherwise issue
one modify(lun_remove) call. -/
def remove_volumes_from_cg (st : CGArray) (pcg_id pcg_name : Option String)
    (cg_name : String) (vols : List VolSpec) :
    Except String (Bool × CGArray × List CGCall) := do
  let remFromNames ← (splitSpecs vols).2.foldlM (fun acc n => do
    let i ← get_volume_details st pcg_id pcg_name (some n) none
    if i ≠ "" ∧ i ∈ existingLunsOf st cg_name ∧ i ∉ acc then
      pure (acc ++ [i])
    else pure acc) []
  let remAll := (splitSpecs vols).1.foldl (fun acc i =>
    if i ∈ existingLunsOf st cg_name ∧ i ∉ acc then acc ++ [i] else acc)
    remFromNames
  if remAll.length = 0 then return (false, st, [])
  else
    return (true,
      st.applyCall (CGCall.modifyRemoveLuns cg_name remAll),
      [CGCall.modifyRemoveLuns cg_name remAll])

/-- The delete-refusal message for a consistency group with members. -/
def deleteWithVolumesMsg : String :=
  "Please remove all volumes which are part of consistency group before deleting it."

/-- Final result of a consistency-group module run. -/
structure CGResult where
  outcome : RunOutcome
  finalSt : CGArray
  calls : List CGCall
deriving DecidableEq

/-- The create / delete branch: on create the three caller-error checks
run first; on delete a group that still has member volumes refuses with a
descriptive error before any delete call.  Returns
(create_cg, delete_cg, truthiness of the cg_details variable, state,
calls). -/
def cgCreateDelete (st0 : CGArray) (p : CGParams) (cg_details : Option CGEntry)
    (cg_name : Option String) :
    Except (String × CGArray × List CGCall)
      (Bool × Bool × Bool × CGArray × List CGCall) :=
  if p.state = DState.present ∧ cg_details = none then
    if volsTruthy p.volumes = false ∧ strTruthy p.tiering_policy = true then
      .error ("The system cannot assign a tiering policy to an empty Consistency group",
        st0, [])
    else if strTruthy cg_name = false then
      .error ("The parameter cg_name length is 0. It is too short. The min length is 1.",
        st0, [])
    else if strTruthy p.new_cg_name = true then
      .error ("Invalid argument, new_cg_name is not required", st0, [])
    else
      let c := CGCall.createCG (cg_name.getD "") p.description p.snap_schedule
      .ok (true, false, true, st0.applyCall c, [c])
  else
    match p.state, cg_details with
    | DState.absent, some cgd =>
      if cgd.luns ≠ [] then .error (deleteWithVolumesMsg, st0, [])
      else
        let c := CGCall.deleteCG (cg_name.getD "")
        .ok (false, true, true, st0.applyCall c, [c])
    | _, _ => .ok (false, false, cg_details.isSome, st0, [])

/-- The add/remove volumes branch, selected by vol_state. -/
def cgVolumes (st1 : CGArray) (p : CGParams) (cg_name : Option String)
    (hasDetails : Bool) :
    Except (String × CGArray × List CGCall)
      (Bool × Bool × CGArray × List CGCall) :=
  if p.state = DState.present ∧ p.vol_state = some GDirective.presentInGroup ∧
      hasDetails = true ∧ volsTruthy p.volumes = true then
    match p.volumes with
    | some vols =>
      match add_volumes_to_cg st1 p.cg_id p.cg_name (cg_name.getD "") vols
          p.tiering_policy with
      | .error m => .error (m, st1, [])
      | .ok (b, st2, tr) => .ok (b, false, st2, tr)
    | none => .ok (false, false, st1, [])
  else if p.state = DState.present ∧ p.vol_state = some GDirective.absentInGroup ∧
      hasDetails = true ∧ volsTruthy p.volumes = true then
    match p.volumes with
    | some vols =>
      match remove_volumes_from_cg st1 p.cg_id p.cg_name (cg_name.getD "") vols with
      | .error m => .error (m, st1, [])
      | .ok (b, st2, tr) => .ok (false, b, st2, tr)
    | none => .ok (false, false, st1, [])
  else .ok (false, false, st1, [])

/-- The rename branch: a new_cg_name of "" is a caller error; a rename
call is issued only when the current name differs. -/
def cgRename (st2 : CGArray) (p : CGParams) (cg_name : Option String) :
    Except (String × CGArray × List CGCall)
      (Bool × Option String × CGArray × List CGCall) :=
  if p.state = DState.present ∧ p.new_cg_name.isSome then
    match p.new_cg_name with
    | some nn =>
      if nn = "" then
        .error ("The parameter new_cg_name length is 0. It is too short. The min length is 1.",
          st2, [])
      else if cg_name ≠ some nn then
        let c := CGCall.renameCG (cg_name.getD "") nn
        .ok (true, some nn, st2.applyCall c, [c])
      else .ok (false, cg_name, st2, [])
    | none => .ok (false, cg_name, st2, [])
  else .ok (false, cg_name, st2, [])

/-- The attribute-modify branch, driven by the `modified` flag computed
from the originally fetched details. -/
def cgModify (st3 : CGArray) (p : CGParams) (cg_name : Option String)
    (hasDetails modified : Bool) : Bool × CGArray × List CGCall :=
  if p.state = DState.present ∧ hasDetails = true ∧ modified = true then
    let c := CGCall.modifyCG (cg_name.getD "") p.description p.snap_schedule
      p.tiering_policy
    (true, st3.applyCall c, [c])
  else (false, st3, [])

/-- Blocks of `perform_module_operation` after the validation prefix:
create/delete, add/remove volumes, rename, modify, then
`changed = create or modify or add or remove or delete or rename`. -/
def cgAfterChecks (st0 : CGArray) (p : CGParams) (cg_details : Option CGEntry)
    (cg_name : Option String) (modified : Bool) : CGResult :=
  match cgCreateDelete st0 p cg_details cg_name with
  | .error (m, st, tr) => ⟨.failed m, st, tr⟩
  | .ok (createB, deleteB, hasDetails, st1, tr1) =>
    match cgVolumes st1 p cg_name hasDetails with
    | .error (m, st, tr2) => ⟨.failed m, st, tr1 ++ tr2⟩
    | .ok (addB, removeB, st2, tr2) =>
      match cgRename st2 p cg_name with
      | .error (m, st, tr3) => ⟨.failed m, st, tr1 ++ tr2 ++ tr3⟩
      | .ok (renameB, cg_name2, st3, tr3) =>
        let r := cgModify st3 p cg_name2 hasDetails modified
        ⟨.exited (createB || r.1 || addB || removeB || deleteB || renameB),
         r.2.1, tr1 ++ tr2 ++ tr3 ++ r.2.2⟩

/-- `perform_module_operation` of UnityConsistencyGroup.  The declared
argument constraints (mutually_exclusive cg_name/cg_id, required_one_of,
required_together volumes/vol_state) fail at module init; then the details
are fetched, the volumes are validated, `is_cg_modified` runs, the
vol_state-without-volumes check runs, and the blocks follow. -/
def perform_module_operation (st0 : CGArray) (p : CGParams) : CGResult :=
  if p.cg_name.isSome ∧ p.cg_id.isSome then
    ⟨.failed "parameters are mutually exclusive: cg_name|cg_id", st0, []⟩
  else if p.cg_name = none ∧ p.cg_id = none then
    ⟨.failed "one of the following is required: cg_name, cg_id", st0, []⟩
  else if p.volumes.isSome ≠ p.vol_state.isSome then
    ⟨.failed "parameters are required together: volumes, vol_state", st0, []⟩
  else
    let cg_details := get_details st0 p.cg_id p.cg_name
    let cg_name : Option String :=
      if p.cg_name = none ∧ cg_details.isSome then cg_details.map (fun c => c.name)
      else p.cg_name
    match (match p.volumes with
           | some vs =>
             if vs ≠ [] then validate_volumes st0 p.cg_id p.cg_name vs else none
           | none => none) with
    | some m => ⟨.failed m, st0, []⟩
    | none =>
      match (match cg_details with
             | some cgd => is_cg_modified cgd p
             | none => Except.ok false) with
      | .error m => ⟨.failed m, st0, []⟩
      | .ok modified =>
        if p.vol_state.isSome ∧ volsTruthy p.volumes = false then
          ⟨.failed "Specify volumes along with vol_state", st0, []⟩
        else cgAfterChecks st0 p cg_details cg_name modified

end CG

namespace UV

/-- The cap_unit parameter; choices ['GB', 'TB']. -/
inductive CapUnit
  | GB
  | TB
deriving DecidableEq

/-- Modelled from the spec: `utils.get_size_bytes` lives in the
collection's module_utils, which is not under src.  The spec describes the
step as "unit conversion to bytes" for sizes given in GB/TB (binary
units). -/
def get_size_bytes (size : Nat) (u : CapUnit) : Nat :=
  size * match u with
    | .GB => 1024 ^ 3
    | .TB => 1024 ^ 4

/-- The volume attributes read by `volume_modify_required` (the sp and
tiering-policy enums are represented by their choice strings). -/
structure VolAttrs where
  name : String
  description : Option String
  size_total : Nat
  is_data_reduction_enabled : Bool
  is_thin_enabled : Bool
  current_node : Option String
  tiering_policy : Option String
  io_limit_policy : Option String
  snap_sched_name : Option String
deriving DecidableEq

/-- The parameters read by `volume_modify_required` (io_limit_pol_id and
snap_schedule_name are the resolved self.param_* fields; a
snap_schedule_name of "" requests schedule removal). -/
structure VolParams where
  new_vol_name : Option String
  description : Option String
  size : Option Nat
  cap_unit : Option CapUnit
  compression : Option Bool
  is_thin : Option Bool
  sp : Option String
  tiering_policy : Option String
  io_limit_pol_id : Option String
  snap_schedule_name : Option String
deriving DecidableEq

/-- The to_update dict of `volume_modify_required`. -/
structure ToUpdate where
  name : Option String
  description : Option String
  size : Option Nat
  is_compression : Option Bool
  sp : Option String
  tiering_policy : Option String
  io_limit_policy : Option String
  snap_schedule : Option String
  is_snap_schedule_paused : Option Bool
deriving DecidableEq

/-- The empty to_update dict. -/
def emptyUpdate : ToUpdate :=
  ⟨none, none, none, none, none, none, none, none, none⟩

/-- The size step of `volume_modify_required` (the caller guarantees a
non-zero size: `perform_module_operation` fails a run with size == 0
before any fetch): shrink fails, growth enters the dict, equality is a
no-op. -/
def sizeStep (obj : VolAttrs) (p : VolParams) (u2 : ToUpdate) :
    Except String ToUpdate :=
  match p.size, p.cap_unit with
  | some sz, some cu =>
    if sz ≠ 0 then
      let size_byte := get_size_bytes sz cu
      if size_byte < obj.size_total then
        Except.error "Volume size can be expanded only"
      else if size_byte > obj.size_total then
        Except.ok { u2 with size := some size_byte }
      else Except.ok u2
    else Except.ok u2
  | _, _ => Except.ok u2

/-- The is_thin guard of `volume_modify_required`. -/
def thinMismatch (obj : VolAttrs) (p : VolParams) : Bool :=
  match p.is_thin with
  | some b => decide (b ≠ obj.is_thin_enabled)
  | none => false

/-- The new-name step: `if new_vol_name and obj_vol.name != new_vol_name`. -/
def nameStep (obj : VolAttrs) (p : VolParams) (u : ToUpdate) : ToUpdate :=
  match p.new_vol_name with
  | some nn => if nn ≠ "" ∧ obj.name ≠ nn then { u with name := some nn } else u
  | none => u

/-- The description step. -/
def descStep (obj : VolAttrs) (p : VolParams) (u : ToUpdate) : ToUpdate :=
  match p.description with
  | some d => if d ≠ "" ∧ obj.description ≠ some d then { u with description := some d } else u
  | none => u

/-- The compression step. -/
def compressionStep (obj : VolAttrs) (p : VolParams) (u : ToUpdate) : ToUpdate :=
  match p.compression with
  | some b => if b ≠ obj.is_data_reduction_enabled then { u with is_compression := some b } else u
  | none => u

/-- The storage-processor step (the NodeEnum value is its choice string). -/
def spStep (obj : VolAttrs) (p : VolParams) (u : ToUpdate) : ToUpdate :=
  match p.sp with
  | some s => if s ≠ "" ∧ some s ≠ obj.current_node then { u with sp := some s } else u
  | none => u

/-- The tiering-policy step. -/
def tieringStep (obj : VolAttrs) (p : VolParams) (u : ToUpdate) : ToUpdate :=
  match p.tiering_policy with
  | some t => if t ≠ "" ∧ some t ≠ obj.tiering_policy then { u with tiering_policy := some t } else u
  | none => u

/-- The io-limit-policy step. -/
def ioLimitStep (obj : VolAttrs) (p : VolParams) (u : ToUpdate) : ToUpdate :=
  match p.io_limit_pol_id with
  | some i => if obj.io_limit_policy = none ∨ obj.io_limit_policy ≠ some i then { u with io_limit_policy := some i } else u
  | none => u

/-- The snap-schedule attach step. -/
def snapSchedStep (obj : VolAttrs) (p : VolParams) (u : ToUpdate) : ToUpdate :=
  match p.snap_schedule_name with
  | some s =>
    if s ≠ "" then
      if obj.snap_sched_name = none ∨ obj.snap_sched_name ≠ some s then { u with snap_schedule := some s } else u
    else u
  | none => u

/-- The snap-schedule removal step (a snap_schedule_name of ""). -/
def snapRemoveStep (obj : VolAttrs) (p : VolParams) (u : ToUpdate) : ToUpdate :=
  match p.snap_schedule_name with
  | some s =>
    if s = "" then
      if obj.snap_sched_name.isSome then { u with is_snap_schedule_paused := some false } else u
    else u
  | none => u

/-- The final `len(to_update) > 0` test: return the dict when non-empty,
else None. -/
def finalize (u9 : ToUpdate) : Except String (Option ToUpdate) :=
  if u9 ≠ emptyUpdate then .ok (some u9) else .ok none

/-- `volume_modify_required`: build the to_update dict field by field in
source order; the size step may fail the run, then the is_thin mismatch
may fail it; the dict is returned when non-empty, else None. -/
def volume_modify_required (obj : VolAttrs) (p : VolParams) :
    Except String (Option ToUpdate) :=
  let u2 := descStep obj p (nameStep obj p emptyUpdate)
  match sizeStep obj p u2 with
  | .error m => .error m
  | .ok u3 =>
    let u4 := compressionStep obj p u3
    if thinMismatch obj p then .error "Modifying is_thin is not allowed"
    else
      finalize (snapRemoveStep obj p (snapSchedStep obj p (ioLimitStep obj p
        (tieringStep obj p (spStep obj p u4)))))

/-- The name entry of the to_update dict, written as a function of the
current attributes and parameters (the condition of the name step). -/
def nameEntry (obj : VolAttrs) (p : VolParams) : Option String :=
  match p.new_vol_name with
  | some nn => if nn ≠ "" ∧ obj.name ≠ nn then some nn else none
  | none => none

/-- The description entry of the to_update dict. -/
def descEntry (obj : VolAttrs) (p : VolParams) : Option String :=
  match p.description with
  | some d => if d ≠ "" ∧ obj.description ≠ some d then some d else none
  | none => none

/-- The size entry of the to_update dict (when the size step does not fail
the run). -/
def sizeEntry (obj : VolAttrs) (p : VolParams) : Option Nat :=
  match p.size, p.cap_unit with
  | some sz, some cu =>
    if sz ≠ 0 ∧ get_size_bytes sz cu > obj.size_total
    then some (get_size_bytes sz cu) else none
  | _, _ => none

/-- The is_compression entry of the to_update dict. -/
def compEntry (obj : VolAttrs) (p : VolParams) : Option Bool :=
  match p.compression with
  | some b => if b ≠ obj.is_data_reduction_enabled then some b else none
  | none => none

/-- The sp entry of the to_update dict. -/
def spEntry (obj : VolAttrs) (p : VolParams) : Option String :=
  match p.sp with
  | some s => if s ≠ "" ∧ some s ≠ obj.current_node then some s else none
  | none => none

/-- The tiering_policy entry of the to_update dict. -/
def tierEntry (obj : VolAttrs) (p : VolParams) : Option String :=
  match p.tiering_policy with
  | some t => if t ≠ "" ∧ some t ≠ obj.tiering_policy then some t else none
  | none => none

/-- The io_limit_policy entry of the to_update dict. -/
def ioEntry (obj : VolAttrs) (p : VolParams) : Option String :=
  match p.io_limit_pol_id with
  | some i =>
    if obj.io_limit_policy = none ∨ obj.io_limit_policy ≠ some i
    then some i else none
  | none => none

/-- The snap_schedule entry of the to_update dict. -/
def snapEntry (obj : VolAttrs) (p : VolParams) : Option String :=
  match p.snap_schedule_name with
  | some s =>
    if s ≠ "" then
      if obj.snap_sched_name = none ∨ obj.snap_sched_name ≠ some s
      then some s else none
    else none
  | none => none

/-- The is_snap_schedule_paused entry of the to_update dict (the
snap-schedule-removal step). -/
def pauseEntry (obj : VolAttrs) (p : VolParams) : Option Bool :=
  match p.snap_schedule_name with
  | some s =>
    if s = "" then (if obj.snap_sched_name.isSome then some false else none)
    else none
  | none => none

/-- The change-set `volume_modify_required` computes, written field by
field (each step of the source writes exactly one key and reads only the
volume attributes and the parameters). -/
def updateOf (obj : VolAttrs) (p : VolParams) : ToUpdate :=
  ⟨nameEntry obj p, descEntry obj p, sizeEntry obj p, compEntry obj p,
   spEntry obj p, tierEntry obj p, ioEntry obj p, snapEntry obj p,
   pauseEntry obj p⟩

/-- The volume attributes after a successful `modify_volume` call applying
the dict: every attribute named in the dict is written with the requested
value (`modify_volume` passes None for the others, leaving them as they
are); is_thin is never in the dict; is_snap_schedule_paused pauses the
attached snapshot schedule without detaching it, so the snap-schedule
association is unchanged. -/
def applyUpdate (obj : VolAttrs) (u : ToUpdate) : VolAttrs :=
  ⟨u.name.getD obj.name, u.description.or obj.description,
   u.size.getD obj.size_total,
   u.is_compression.getD obj.is_data_reduction_enabled,
   obj.is_thin_enabled, u.sp.or obj.current_node,
   u.tiering_policy.or obj.tiering_policy,
   u.io_limit_policy.or obj.io_limit_policy,
   u.snap_schedule.or obj.snap_sched_name⟩

/-- No supplied size is strictly below the current total size (the
condition under which the size step does not fail the run). -/
def sizeNoShrink (obj : VolAttrs) (p : VolParams) : Prop :=
  ∀ sz cu, p.size = some sz → p.cap_unit = some cu → sz ≠ 0 →
    ¬ get_size_bytes sz cu < obj.size_total

end UV

namespace HG

/-- The host-flag values documented by the module ("Possible values are
true, false, unset"), in either bool or string spelling. -/
def PVal.canonical : PVal → Bool
  | .pb _ => true
  | .ps s => s == "true" || s == "True" || s == "false" || s == "False" ||
      s == "unset" || s == "Unset"

/-- All supplied host-flag values are canonical. -/
def ReceivedFlags.canonical (r : ReceivedFlags) : Bool :=
  r.volume_set_addressing.all PVal.canonical &&
  r.environ_set.all PVal.canonical &&
  r.disable_q_reset_on_ua.all PVal.canonical &&
  r.openvms.all PVal.canonical &&
  r.avoid_reset_broadcast.all PVal.canonical &&
  r.scsi_3.all PVal.canonical &&
  r.spc2_protocol_version.all PVal.canonical &&
  r.scsi_support1.all PVal.canonical &&
  r.consistent_lun.all PVal.canonical

/-- The spec-level tri-state outcome of a flag payload entry: no override
is reset-to-default, an override is enabled or explicitly disabled. -/
inductive FlagOutcome
  | resetDefault
  | disabled
  | enabled
deriving DecidableEq

/-- Reading a payload entry back as its tri-state outcome. -/
def FlagSetting.outcome (f : FlagSetting) : FlagOutcome :=
  if f.override then (if f.enabled then .enabled else .disabled)
  else .resetDefault

end HG

/-! Concrete inputs used by the closed counterexample, failing-input and
witness theorems. -/

/-- Array with one empty host group g and one host h1. -/
def hgStOne : HG.HGArray := ⟨[⟨"g", [], HG.defaultHostFlags⟩], ["h1"]⟩

/-- Parameters: add h1 to g and supply a host_flags dict whose computed
modify diff is empty (openvms: "unset" against all-default flags). -/
def hgParamsAddFlags : HG.HGParams :=
  ⟨"g", some ["h1"], DState.present, some GDirective.presentInGroup,
   ⟨none, none, none, some (PVal.ps "unset"), none, none, none, none, none⟩,
   none⟩

/-- Parameters: rename g to g2. -/
def hgParamsRename : HG.HGParams :=
  ⟨"g", none, DState.present, none, HG.emptyReceived, some "g2"⟩

/-- host_flags dict with the single non-canonical truthy value "yes". -/
def yesReceived : HG.ReceivedFlags :=
  ⟨some (PVal.ps "yes"), none, none, none, none, none, none, none, none⟩

/-- Array with one empty host group g and no hosts at all. -/
def hgStNoHosts : HG.HGArray := ⟨[⟨"g", [], HG.defaultHostFlags⟩], []⟩

/-- Parameters: add the nonexistent host h1 to the existing group g. -/
def hgParamsAddMissing : HG.HGParams :=
  ⟨"g", some ["h1"], DState.present, some GDirective.presentInGroup,
   HG.emptyReceived, none⟩

/-- Parameters: create the absent group g2 with the nonexistent host h1. -/
def hgParamsCreateMissing : HG.HGParams :=
  ⟨"g2", some ["h1"], DState.present, some GDirective.presentInGroup,
   HG.emptyReceived, none⟩

/-- Parameters: remove host h1 from group g (absent-in-group directive). -/
def hgParamsRemoveDir : HG.HGParams :=
  ⟨"g", some ["h1"], DState.present, some GDirective.absentInGroup,
   HG.emptyReceived, none⟩

/-- Parameters: state present for g with nothing else requested. -/
def hgParamsPlain : HG.HGParams :=
  ⟨"g", none, DState.present, none, HG.emptyReceived, none⟩

/-- Unity array with one consistency group (id cg1, name mycg) owning
volume v1. -/
def cgStOne : CG.CGArray :=
  ⟨[⟨"cg1", "mycg", none, none, ["v1"], none⟩], [⟨"v1", "vol1", some "cg1"⟩]⟩

/-- Parameters: delete mycg. -/
def cgParamsDelete : CG.CGParams :=
  ⟨some "mycg", none, none, none, none, none, none, none, DState.absent⟩

/-- Parameters: remove the non-member volume v9 from mycg. -/
def cgParamsRemoveV9 : CG.CGParams :=
  ⟨some "mycg", none, none, some [CG.VolSpec.byId "v9"], none, none, none,
   some GDirective.absentInGroup, DState.present⟩

/-- PowerMax array with one masking view mv1. -/
def mvStOne : MV.MVArray := ⟨[⟨"mv1", some "pg", some "sg", some "h", none⟩]⟩

/-- Parameters: rename mv1 to itself. -/
def mvParamsNoop : MV.MVParams :=
  ⟨"mv1", none, none, none, none, some "mv1", DState.present⟩

/-- Parameters: rename mv1 to mv2. -/
def mvParamsRename : MV.MVParams :=
  ⟨"mv1", none, none, none, none, some "mv2", DState.present⟩

/-- Parameters: supply both a host and a host group. -/
def mvParamsBoth : MV.MVParams :=
  ⟨"mv1", some "pg", some "h", some "hg", some "sg", none, DState.present⟩

/-- A 2-GiB volume. -/
def uvVolTwoGb : UV.VolAttrs :=
  ⟨"vol1", none, 2 * 1024 ^ 3, false, true, none, none, none, none⟩

/-- Parameters requesting a given size in GB. -/
def uvParamsSize (sz : Nat) : UV.VolParams :=
  ⟨none, none, some sz, some UV.CapUnit.GB, none, none, none, none, none, none⟩

/-- A 2-GiB volume with an attached snapshot schedule. -/
def uvSnapVol : UV.VolAttrs :=
  ⟨"vol1", none, 2 * 1024 ^ 3, false, true, none, none, none, some "sched"⟩

/-- Parameters requesting snap-schedule removal (snap_schedule ""). -/
def uvParamsSnapRemove : UV.VolParams :=
  ⟨none, none, none, none, none, none, none, none, none, some ""⟩

/-! ## Helper lemmas -/

namespace HG

@[simp]
theorem seq_halt (o : RunOutcome) (st : HGArray) (tr : List HGCall)
    (f : Bool → HGArray → HGStep) :
    (HGStep.halt o st tr).seq f = .halt o st tr := rfl

@[simp]
theorem seq_cont (c : Bool) (st : HGArray) (tr : List HGCall)
    (f : Bool → HGArray → HGStep) :
    (HGStep.cont c st tr).seq f = (f c st).withPrefix tr := rfl

@[simp]
theorem withPrefix_cont (tr : List HGCall) (c : Bool) (st : HGArray)
    (tr2 : List HGCall) :
    (HGStep.cont c st tr2).withPrefix tr = .cont c st (tr ++ tr2) := rfl

@[simp]
theorem withPrefix_halt (tr : List HGCall) (o : RunOutcome) (st : HGArray)
    (tr2 : List HGCall) :
    (HGStep.halt o st tr2).withPrefix tr = .halt o st (tr ++ tr2) := rfl

theorem falseLike_unset (v : PVal) (h : v.isFalseLike = true) :
    v.isUnsetStr = false := by
  cases v with
  | pb b => rfl
  | ps s =>
    simp only [PVal.isFalseLike, PVal.isUnsetStr, Bool.or_eq_true,
      beq_iff_eq] at h ⊢
    rcases h with h | h <;> subst h <;> simp

theorem falseLike_not_true (v : PVal) (h : v.isFalseLike = true) :
    v.isTrueLike = false := by
  cases v with
  | pb b => cases b <;> simp_all [PVal.isFalseLike, PVal.isTrueLike]
  | ps s =>
    simp only [PVal.isFalseLike, PVal.isTrueLike, Bool.or_eq_true,
      beq_iff_eq] at h ⊢
    rcases h with h | h <;> subst h <;> simp

theorem modify_flag_idem (c : FlagSetting) (o : Option PVal) :
    modifyFlagRule (modifyFlagRule c o) o = modifyFlagRule c o := by
  cases o <;> rfl

theorem modify_cl_idem (c : Bool) (o : Option PVal) :
    modifyClRule (modifyClRule c o) o = modifyClRule c o := by
  cases o <;> rfl

theorem applyModifyFlags_idem (r : ReceivedFlags) (f : HostFlags) :
    applyModifyFlags r (applyModifyFlags r f) = applyModifyFlags r f := by
  simp only [applyModifyFlags, modify_flag_idem, modify_cl_idem]

theorem flag_stable (o : Option PVal) (hc : o.all PVal.canonical = true) :
    modifyFlagRule (createFlagRule o) o = createFlagRule o := by
  match o with
  | none => rfl
  | some (PVal.pb b) => cases b <;> rfl
  | some (PVal.ps s) =>
    simp only [Option.all, PVal.canonical, Bool.or_eq_true, beq_iff_eq] at hc
    rcases hc with ((((h | h) | h) | h) | h) | h <;> subst h <;> rfl

theorem cl_stable (o : Option PVal) :
    modifyClRule (createClRule o) o = createClRule o := by
  cases o <;> rfl

theorem applyModify_create_stable (r : ReceivedFlags)
    (hc : r.canonical = true) :
    applyModifyFlags r (create_host_flags_dict r) = create_host_flags_dict r := by
  simp only [ReceivedFlags.canonical, Bool.and_eq_true] at hc
  obtain ⟨⟨⟨⟨⟨⟨⟨⟨h1, h2⟩, h3⟩, h4⟩, h5⟩, h6⟩, h7⟩, h8⟩, _⟩ := hc
  simp only [applyModifyFlags, create_host_flags_dict, HostFlags.mk.injEq]
  exact ⟨flag_stable _ h1, flag_stable _ h2, flag_stable _ h3, flag_stable _ h4,
    flag_stable _ h5, flag_stable _ h6, flag_stable _ h7, flag_stable _ h8,
    cl_stable _⟩

end HG

/-! ## Claim theorems -/

/-- C1: the claim says `changed` is true iff at least one mutating call
succeeded in the run.  Evaluating the embedded host-group module at the
failing input (existing empty group g, add host h1, and a host_flags dict
whose modify diff is empty): the add-members call succeeds, yet
`modify_host_flags` terminates the run via exit_json(changed=False), so
the reported changed is false although a mutating call succeeded. -/
theorem c1_changed_misreported :
    (HG.perform_module_operation hgStOne hgParamsAddFlags).calls =
      [HG.HGCall.addHosts "g" ["h1"]] ∧
    (HG.perform_module_operation hgStOne hgParamsAddFlags).outcome =
      RunOutcome.exited false := ⟨rfl, rfl⟩

/-- C2 counterexample: (i) host group: reconciling twice with the same
rename request (rename g to g2) and no external drift gives changed=true
on both runs — the renamed group is no longer found under hostgroup_name,
so the second run takes the create path and re-creates g; (ii) Unity
volume: requesting snap-schedule removal computes the change-set
\{is_snap_schedule_paused: False\}, which pauses but does not detach the
schedule, so after the successful modify the second diff recomputes the
same non-empty change-set.  The claim says the second run must report
changed=false with an empty change-set. -/
theorem c2_counterexample :
    ((HG.perform_module_operation hgStNoHosts hgParamsRename).outcome =
      RunOutcome.exited true ∧
    (HG.perform_module_operation
        (HG.perform_module_operation hgStNoHosts hgParamsRename).finalSt
        hgParamsRename).outcome =
      RunOutcome.exited true) ∧
    (UV.volume_modify_required uvSnapVol uvParamsSnapRemove =
      Except.ok (some ⟨none, none, none, none, none, none, none, none,
        some false⟩) ∧
    UV.volume_modify_required
      (UV.applyUpdate uvSnapVol
        ⟨none, none, none, none, none, none, none, none, some false⟩)
      uvParamsSnapRemove =
      Except.ok (some ⟨none, none, none, none, none, none, none, none,
        some false⟩) ∧
    some (⟨none, none, none, none, none, none, none, none, some false⟩ :
      UV.ToUpdate) ≠ none) :=
  ⟨⟨rfl, rfl⟩, rfl, rfl, by decide⟩

/-- C4 counterexample: the truthy flag value "yes" maps to enabled in the
create path but to reset-to-default in the modify path, and a flag omitted
from the request keeps its current (enabled) setting in the modify path
instead of being reset to default — the claimed single mapping rule is not
applied in the modify path. -/
theorem c4_counterexample :
    (HG.create_host_flags_dict yesReceived).volume_set_addressing =
      HG.set_to_enable ∧
    (HG.applyModifyFlags yesReceived
        (HG.create_host_flags_dict yesReceived)).volume_set_addressing =
      HG.set_to_default ∧
    HG.set_to_default ≠ HG.set_to_enable ∧
    (HG.applyModifyFlags HG.emptyReceived
        (HG.create_host_flags_dict yesReceived)).volume_set_addressing =
      HG.set_to_enable := ⟨rfl, rfl, by decide, rfl⟩

/-- C4 amended: in the create path the claimed mapping holds (absent or
unset-like resets to default, false-like disables, any other value
enables); in the modify path only True/'True'/'true' enables, false-like
disables, any other supplied value resets to default, and an omitted flag
keeps its current setting instead of being reset. -/
theorem c4_amended (v : PVal) (cur : HG.FlagSetting) :
    (HG.createFlagRule none).outcome = HG.FlagOutcome.resetDefault ∧
    (v.isUnsetStr = true →
      (HG.createFlagRule (some v)).outcome = HG.FlagOutcome.resetDefault) ∧
    (v.isFalseLike = true →
      (HG.createFlagRule (some v)).outcome = HG.FlagOutcome.disabled) ∧
    (v.isUnsetStr = false → v.isFalseLike = false →
      (HG.createFlagRule (some v)).outcome = HG.FlagOutcome.enabled) ∧
    (v.isTrueLike = true →
      (HG.modifyFlagRule cur (some v)).outcome = HG.FlagOutcome.enabled) ∧
    (v.isFalseLike = true →
      (HG.modifyFlagRule cur (some v)).outcome = HG.FlagOutcome.disabled) ∧
    (v.isTrueLike = false → v.isFalseLike = false →
      (HG.modifyFlagRule cur (some v)).outcome = HG.FlagOutcome.resetDefault) ∧
    HG.modifyFlagRule cur none = cur := by
  refine ⟨rfl, ?_, ?_, ?_, ?_, ?_, ?_, rfl⟩
  · intro h
    simp [HG.createFlagRule, h, HG.FlagSetting.outcome, HG.set_to_default]
  · intro h
    simp [HG.createFlagRule, HG.falseLike_unset v h, h,
      HG.FlagSetting.outcome, HG.set_to_disable]
  · intro h1 h2
    simp [HG.createFlagRule, h1, h2, HG.FlagSetting.outcome, HG.set_to_enable]
  · intro h
    simp [HG.modifyFlagRule, h, HG.FlagSetting.outcome, HG.set_to_enable]
  · intro h
    simp [HG.modifyFlagRule, HG.falseLike_not_true v h, h,
      HG.FlagSetting.outcome, HG.set_to_disable]
  · intro h1 h2
    simp [HG.modifyFlagRule, h1, h2, HG.FlagSetting.outcome,
      HG.set_to_default]

/-- C4 amended, witness: the unset-like value resets in the create path
and the non-canonical truthy value "yes" resets in the modify path. -/
theorem c4_amended_witness :
    (HG.createFlagRule (some (PVal.ps "unset"))).outcome =
      HG.FlagOutcome.resetDefault ∧
    (HG.modifyFlagRule HG.set_to_disable (some (PVal.ps "yes"))).outcome =
      HG.FlagOutcome.resetDefault :=
  ⟨(c4_amended (PVal.ps "unset") HG.set_to_disable).2.1 rfl,
   (c4_amended (PVal.ps "yes") HG.set_to_disable).2.2.2.2.2.2.1 rfl rfl⟩

/-- C7: supplying both a host name and a host-group name terminates the
masking-view run with the declared mutual-exclusion caller error before
any diffing or mutating call: the result is the failure, the array is
untouched, and no call is traced. -/
theorem c7_host_hostgroup_exclusive (st : MV.MVArray) (p : MV.MVParams)
    (h hg : String) (h1 : p.host_name = some h)
    (h2 : p.hostgroup_name = some hg) :
    MV.perform_module_operation st p =
      ⟨RunOutcome.failed MV.mutexMsg, st, []⟩ := by
  simp [MV.perform_module_operation, h1, h2]

/-- C7 witness. -/
theorem c7_witness :
    MV.perform_module_operation mvStOne mvParamsBoth =
      ⟨RunOutcome.failed MV.mutexMsg, mvStOne, []⟩ :=
  c7_host_hostgroup_exclusive mvStOne mvParamsBoth "h" "hg" rfl rfl

namespace UV

theorem nameStep_size (obj : VolAttrs) (p : VolParams) (v : ToUpdate) :
    (nameStep obj p v).size = v.size := by
  unfold nameStep
  cases p.new_vol_name <;> simp only [] <;> try rfl
  split <;> rfl

theorem descStep_size (obj : VolAttrs) (p : VolParams) (v : ToUpdate) :
    (descStep obj p v).size = v.size := by
  unfold descStep
  cases p.description <;> simp only [] <;> try rfl
  split <;> rfl

theorem compressionStep_size (obj : VolAttrs) (p : VolParams) (v : ToUpdate) :
    (compressionStep obj p v).size = v.size := by
  unfold compressionStep
  cases p.compression <;> simp only [] <;> try rfl
  split <;> rfl

theorem spStep_size (obj : VolAttrs) (p : VolParams) (v : ToUpdate) :
    (spStep obj p v).size = v.size := by
  unfold spStep
  cases p.sp <;> simp only [] <;> try rfl
  split <;> rfl

theorem tieringStep_size (obj : VolAttrs) (p : VolParams) (v : ToUpdate) :
    (tieringStep obj p v).size = v.size := by
  unfold tieringStep
  cases p.tiering_policy <;> simp only [] <;> try rfl
  split <;> rfl

theorem ioLimitStep_size (obj : VolAttrs) (p : VolParams) (v : ToUpdate) :
    (ioLimitStep obj p v).size = v.size := by
  unfold ioLimitStep
  cases p.io_limit_pol_id <;> simp only [] <;> try rfl
  split <;> rfl

theorem snapSchedStep_size (obj : VolAttrs) (p : VolParams) (v : ToUpdate) :
    (snapSchedStep obj p v).size = v.size := by
  unfold snapSchedStep
  cases p.snap_schedule_name <;> simp only [] <;> try rfl
  split <;> first | rfl | (split <;> rfl)

theorem snapRemoveStep_size (obj : VolAttrs) (p : VolParams) (v : ToUpdate) :
    (snapRemoveStep obj p v).size = v.size := by
  unfold snapRemoveStep
  cases p.snap_schedule_name <;> simp only [] <;> try rfl
  split <;> first | rfl | (split <;> rfl)

/-- The steps after the size step never change the size entry. -/
theorem tailSteps_size (obj : VolAttrs) (p : VolParams) (v : ToUpdate) :
    (snapRemoveStep obj p (snapSchedStep obj p (ioLimitStep obj p
      (tieringStep obj p (spStep obj p (compressionStep obj p v)))))).size =
      v.size := by
  rw [snapRemoveStep_size, snapSchedStep_size, ioLimitStep_size,
    tieringStep_size, spStep_size, compressionStep_size]

/-- The steps before the size step leave the size entry absent. -/
theorem headSteps_size (obj : VolAttrs) (p : VolParams) :
    (descStep obj p (nameStep obj p emptyUpdate)).size = none := by
  rw [descStep_size, nameStep_size]; rfl

end UV

/-- The finalize step determines the size entry of the returned
change-set. -/
theorem finalize_ok (u9 : UV.ToUpdate) (r : Option UV.ToUpdate)
    (h : UV.finalize u9 = Except.ok r) :
    r.bind UV.ToUpdate.size = u9.size := by
  unfold UV.finalize at h
  split at h
  · cases h
    rfl
  · cases h
    rename_i hne
    rw [not_ne_iff] at hne
    rw [hne]
    rfl

/-- C10: for an existing volume and a requested size with a unit (a size
of 0 is rejected by `perform_module_operation` before this point), a
converted size strictly below the current total fails the run with the
descriptive message, so no change-set is produced and no resize happens;
an equal size puts no size entry in the change-set; only a strictly larger
size puts the converted byte count in the change-set. -/
theorem c10_size_expand_only (obj : UV.VolAttrs) (p : UV.VolParams)
    (sz : Nat) (u : UV.CapUnit) (hs : p.size = some sz)
    (hu : p.cap_unit = some u) (hnz : sz ≠ 0) :
    (UV.get_size_bytes sz u < obj.size_total →
      UV.volume_modify_required obj p =
        Except.error "Volume size can be expanded only") ∧
    (UV.get_size_bytes sz u = obj.size_total →
      ∀ r, UV.volume_modify_required obj p = Except.ok r →
        r.bind UV.ToUpdate.size = none) ∧
    (UV.get_size_bytes sz u > obj.size_total →
      ∀ r, UV.volume_modify_required obj p = Except.ok r →
        r.bind UV.ToUpdate.size = some (UV.get_size_bytes sz u)) := by
  have hsz : ∀ v, UV.sizeStep obj p v =
      (if UV.get_size_bytes sz u < obj.size_total then
        Except.error "Volume size can be expanded only"
      else if UV.get_size_bytes sz u > obj.size_total then
        Except.ok { v with size := some (UV.get_size_bytes sz u) }
      else Except.ok v) := by
    intro v
    simp [UV.sizeStep, hs, hu, hnz]
  refine ⟨?_, ?_, ?_⟩
  · intro hlt
    simp [UV.volume_modify_required, hsz, hlt]
  · intro heq r hr
    have h1 : ¬ (UV.get_size_bytes sz u < obj.size_total) := by omega
    have h2 : ¬ (UV.get_size_bytes sz u > obj.size_total) := by omega
    simp only [UV.volume_modify_required, hsz, if_neg h1, if_neg h2] at hr
    cases ht : UV.thinMismatch obj p
    · simp only [ht, Bool.false_eq_true, if_false] at hr
      rw [finalize_ok _ r hr, UV.tailSteps_size, UV.headSteps_size]
    · simp only [ht, eq_self_iff_true, if_true] at hr
      exact Except.noConfusion hr
  · intro hgt r hr
    have h1 : ¬ (UV.get_size_bytes sz u < obj.size_total) := by omega
    simp only [UV.volume_modify_required, hsz, if_neg h1, if_pos hgt] at hr
    cases ht : UV.thinMismatch obj p
    · simp only [ht, Bool.false_eq_true, if_false] at hr
      rw [finalize_ok _ r hr, UV.tailSteps_size]
    · simp only [ht, eq_self_iff_true, if_true] at hr
      exact Except.noConfusion hr

/-- C10 witness: a 2-GiB volume with requests of 1, 2 and 3 GB. -/
theorem c10_witness :
    UV.volume_modify_required uvVolTwoGb (uvParamsSize 1) =
      Except.error "Volume size can be expanded only" ∧
    (∀ r, UV.volume_modify_required uvVolTwoGb (uvParamsSize 2) =
      Except.ok r → r.bind UV.ToUpdate.size = none) ∧
    (∀ r, UV.volume_modify_required uvVolTwoGb (uvParamsSize 3) =
      Except.ok r →
        r.bind UV.ToUpdate.size = some (UV.get_size_bytes 3 UV.CapUnit.GB)) :=
  ⟨(c10_size_expand_only uvVolTwoGb (uvParamsSize 1) 1 UV.CapUnit.GB rfl rfl
      (by decide)).1 (by norm_num [UV.get_size_bytes, uvVolTwoGb]),
   (c10_size_expand_only uvVolTwoGb (uvParamsSize 2) 2 UV.CapUnit.GB rfl rfl
      (by decide)).2.1 (by norm_num [UV.get_size_bytes, uvVolTwoGb]),
   (c10_size_expand_only uvVolTwoGb (uvParamsSize 3) 3 UV.CapUnit.GB rfl rfl
      (by decide)).2.2 (by norm_num [UV.get_size_bytes, uvVolTwoGb])⟩

namespace MV

theorem renameBlock_calls (st0 : MVArray) (p : MVParams)
    (mv? : Option MVEntry) (a b : String)
    (h : MVCall.renameMV a b ∈ (renameBlock st0 p mv?).2.2) : a ≠ b := by
  unfold renameBlock at h
  split at h
  · split at h
    · unfold rename_masking_view at h
      split at h
      · simp at h
      · simp only [List.mem_singleton, MVCall.renameMV.injEq] at h
        obtain ⟨h1, h2⟩ := h
        subst h1
        subst h2
        assumption
    · simp at h
  · simp at h

theorem renameBlock_self (st0 : MVArray) (p : MVParams)
    (mv? : Option MVEntry) (hnew : p.new_mv_name = some p.mv_name) :
    renameBlock st0 p mv? = (false, st0, []) := by
  unfold renameBlock
  split
  · rw [hnew]
    simp [rename_masking_view]
  · rfl

theorem create_masking_view_ok (st : MVArray) (p : MVParams) (st1 : MVArray)
    (c : MVCall) (h : create_masking_view st p = .ok (st1, c)) :
    ∃ pg sg, c = MVCall.createMV p.mv_name pg sg p.host_name p.hostgroup_name := by
  unfold create_masking_view at h
  split at h
  · exact Except.noConfusion h
  · split at h
    · split at h
      · exact Except.noConfusion h
      · cases h
        exact ⟨_, _, rfl⟩
    · exact Except.noConfusion h

theorem mvBlocks_rename_calls (st0 : MVArray) (p : MVParams)
    (mv? : Option MVEntry) (a b : String)
    (h : MVCall.renameMV a b ∈ (mvBlocks st0 p mv?).calls) : a ≠ b := by
  unfold mvBlocks at h
  split at h
  · split at h
    · simp at h
    · rename_i st1 c heq
      simp only [List.mem_singleton] at h
      obtain ⟨pg, sg, hc⟩ := create_masking_view_ok _ _ _ _ heq
      rw [hc] at h
      exact absurd h (by simp)
  · simp only [List.mem_append] at h
    rcases h with h | h
    · exact renameBlock_calls _ _ _ _ _ h
    · unfold deleteBlock at h
      split at h <;> simp_all

end MV

/-- C5: deleting a consistency group that still has at least one member
volume (a typical delete invocation: resolved by name, no volumes / no
vol_state supplied) fails the run with the descriptive refusal message
before any call is issued: the trace is empty and the array state is
untouched (a fail_json result carries changed=false). -/
theorem c5_delete_refused (st : CG.CGArray) (p : CG.CGParams) (n : String)
    (cg : CG.CGEntry) (h1 : p.state = DState.absent) (h2 : p.cg_name = some n)
    (h3 : p.cg_id = none) (h4 : p.volumes = none) (h5 : p.vol_state = none)
    (h6 : st.findByName n = some cg) (h7 : cg.luns ≠ []) :
    CG.perform_module_operation st p =
      ⟨RunOutcome.failed CG.deleteWithVolumesMsg, st, []⟩ := by
  simp [CG.perform_module_operation, CG.get_details, CG.cgAfterChecks,
    CG.cgCreateDelete, CG.is_cg_modified, h1, h2, h3, h4, h5, h6, h7]

/-- C5 witness: the group mycg still owns volume v1. -/
theorem c5_witness :
    CG.perform_module_operation cgStOne cgParamsDelete =
      ⟨RunOutcome.failed CG.deleteWithVolumesMsg, cgStOne, []⟩ :=
  c5_delete_refused cgStOne cgParamsDelete "mycg"
    ⟨"cg1", "mycg", none, none, ["v1"], none⟩ rfl rfl rfl rfl rfl rfl
    (by decide)

/-- C6: a rename request whose new name equals the entity's current name
issues no rename call and yields changed=false when nothing else is
requested (here: an existing masking view whose parameters match), and a
rename call is issued only when the old and new names differ. -/
theorem c6_rename_noop :
    (∀ (st : MV.MVArray) (p : MV.MVParams) (mv : MV.MVEntry),
      p.state = DState.present →
      ¬(p.host_name.isSome ∧ p.hostgroup_name.isSome) →
      st.getMV p.mv_name = some mv →
      MV.is_mv_changed_flag mv p = false →
      p.new_mv_name = some p.mv_name →
      MV.perform_module_operation st p = ⟨RunOutcome.exited false, st, []⟩) ∧
    (∀ (st : MV.MVArray) (p : MV.MVParams) (a b : String),
      MV.MVCall.renameMV a b ∈ (MV.perform_module_operation st p).calls →
      a ≠ b) := by
  constructor
  · intro st p mv hp hmut hmv hflag hnew
    simp only [MV.perform_module_operation, if_neg hmut, hmv, hflag,
      Bool.false_eq_true, if_false]
    rw [MV.mvBlocks, if_neg (by simp)]
    rw [MV.renameBlock_self st p (some mv) hnew]
    simp [MV.deleteBlock, hp]
  · intro st p a b hmem
    unfold MV.perform_module_operation at hmem
    split at hmem
    · simp at hmem
    · split at hmem
      · split at hmem
        · simp at hmem
        · exact MV.mvBlocks_rename_calls _ _ _ _ _ hmem
      · exact MV.mvBlocks_rename_calls _ _ _ _ _ hmem

/-- C6 witness: renaming mv1 to itself is a no-op; a rename call that does
occur (mv1 to mv2) carries distinct names. -/
theorem c6_witness :
    MV.perform_module_operation mvStOne mvParamsNoop =
      ⟨RunOutcome.exited false, mvStOne, []⟩ ∧
    ("mv1" : String) ≠ "mv2" :=
  ⟨c6_rename_noop.1 mvStOne mvParamsNoop
      ⟨"mv1", some "pg", some "sg", some "h", none⟩ rfl (by decide) rfl rfl
      rfl,
   c6_rename_noop.2 mvStOne mvParamsRename "mv1" "mv2" (by decide)⟩

namespace HG

theorem find?_append_of_none {α : Type} (p : α → Bool) (l1 l2 : List α)
    (h : l1.find? p = none) : (l1 ++ l2).find? p = l2.find? p := by
  induction l1 with
  | nil => rfl
  | cons a l ih =>
    cases hpa : p a
    · rw [List.cons_append, List.find?_cons_of_neg _ (by simp [hpa])]
      rw [List.find?_cons_of_neg _ (by simp [hpa])] at h
      exact ih h
    · rw [List.find?_cons_of_pos _ hpa] at h
      exact Option.noConfusion h

theorem find?_updateGroups (gs : List HGroup) (n : String) (f : HGroup → HGroup)
    (hf : ∀ g, (f g).hostGroupId = g.hostGroupId) :
    (updateGroups gs n f).find? (fun g => g.hostGroupId == n) =
      (gs.find? (fun g => g.hostGroupId == n)).map f := by
  induction gs with
  | nil => rfl
  | cons a l ih =>
    unfold updateGroups at ih ⊢
    rw [List.map_cons]
    by_cases hb : (a.hostGroupId == n) = true
    · have hfa : ((f a).hostGroupId == n) = true := by rw [hf]; exact hb
      rw [if_pos hb]
      simp only [List.find?, hfa, hb]
      rfl
    · have hb2 : (a.hostGroupId == n) = false := by simpa using hb
      rw [if_neg hb]
      have hfa2 : ((f a).hostGroupId == n) = false := by rw [hf]; exact hb2
      simp only [List.find?, hb2]
      exact ih

theorem getHostgroup_some_id (st : HGArray) (n : String) (g : HGroup)
    (h : st.getHostgroup n = some g) : g.hostGroupId = n := by
  have := List.find?_some h
  simpa using this

theorem getHostgroup_addHosts (st : HGArray) (n : String) (hs : List String)
    (g : HGroup) (h : st.getHostgroup n = some g) :
    (st.applyCall (.addHosts n hs)).getHostgroup n =
      some ⟨g.hostGroupId, g.hosts ++ hs, g.flags⟩ := by
  simp only [HGArray.getHostgroup, HGArray.applyCall]
  rw [find?_updateGroups st.groups n
    (fun g => ⟨g.hostGroupId, g.hosts ++ hs, g.flags⟩) (fun g => rfl)]
  simp only [HGArray.getHostgroup] at h
  rw [h]
  rfl

theorem getHostgroup_removeHosts (st : HGArray) (n : String) (hs : List String)
    (g : HGroup) (h : st.getHostgroup n = some g) :
    (st.applyCall (.removeHosts n hs)).getHostgroup n =
      some ⟨g.hostGroupId, g.hosts.filter (fun x => decide (x ∉ hs)), g.flags⟩ := by
  simp only [HGArray.getHostgroup, HGArray.applyCall]
  rw [find?_updateGroups st.groups n
    (fun g => ⟨g.hostGroupId, g.hosts.filter (fun h => decide (h ∉ hs)), g.flags⟩)
    (fun g => rfl)]
  simp only [HGArray.getHostgroup] at h
  rw [h]
  rfl

theorem getHostgroup_modifyFlags (st : HGArray) (n : String) (f : HostFlags)
    (g : HGroup) (h : st.getHostgroup n = some g) :
    (st.applyCall (.modifyFlags n f)).getHostgroup n =
      some ⟨g.hostGroupId, g.hosts, f⟩ := by
  simp only [HGArray.getHostgroup, HGArray.applyCall]
  rw [find?_updateGroups st.groups n
    (fun g => ⟨g.hostGroupId, g.hosts, f⟩) (fun g => rfl)]
  simp only [HGArray.getHostgroup] at h
  rw [h]
  rfl

theorem getHostgroup_createEmpty (st : HGArray) (n : String) (f : HostFlags)
    (h : st.getHostgroup n = none) :
    (st.applyCall (.createEmpty n f)).getHostgroup n = some ⟨n, [], f⟩ := by
  simp only [HGArray.getHostgroup, HGArray.applyCall]
  simp only [HGArray.getHostgroup] at h
  rw [find?_append_of_none _ _ _ h]
  rw [List.find?_cons_of_pos _ (by simp)]

theorem getHostgroup_createWithHosts (st : HGArray) (n : String)
    (f : HostFlags) (hs : List String) (h : st.getHostgroup n = none) :
    (st.applyCall (.createWithHosts n f hs)).getHostgroup n = some ⟨n, hs, f⟩ := by
  simp only [HGArray.getHostgroup, HGArray.applyCall]
  simp only [HGArray.getHostgroup] at h
  rw [find?_append_of_none _ _ _ h]
  rw [List.find?_cons_of_pos _ (by simp)]

theorem getHostgroup_delete (st : HGArray) (n : String) :
    (st.applyCall (.deleteGroup n)).getHostgroup n = none := by
  simp only [HGArray.getHostgroup, HGArray.applyCall]
  rw [List.find?_eq_none]
  intro g hmem
  rw [List.mem_filter] at hmem
  simp only [decide_eq_true_eq] at hmem
  simp [hmem.2]

theorem existingHostsOf_eq (st : HGArray) (n : String) (g : HGroup)
    (h : st.getHostgroup n = some g) : existingHostsOf st n = g.hosts := by
  unfold existingHostsOf
  rw [h]

/-- The add helper is a no-op returning False exactly when every requested
host is already a member. -/
theorem add_noop (st : HGArray) (n : String) (hs : List String)
    (hsub : ∀ x ∈ hs, x ∈ existingHostsOf st n) :
    add_hosts_to_hostgroup st n hs = (false, st, []) := by
  unfold add_hosts_to_hostgroup
  by_cases he : hs = []
  · subst he
    rw [if_neg (by simp)]
    simp [get_add_hosts]
  · rw [if_pos ⟨he, hsub⟩]

/-- The remove helper is a no-op returning False when no member is in the
requested list. -/
theorem remove_noop (st : HGArray) (n : String) (hs : List String)
    (hdis : ∀ x ∈ existingHostsOf st n, x ∉ hs) :
    remove_hosts_from_hostgroup st n hs = (false, st, []) := by
  unfold remove_hosts_from_hostgroup
  by_cases he : existingHostsOf st n = []
  · rw [if_pos he]
  · rw [if_neg he]
    have hrem : get_remove_hosts (existingHostsOf st n) hs = [] := by
      unfold get_remove_hosts
      rw [List.filter_eq_nil]
      intro a ha
      simpa using hdis a ha
    simp [hrem]

/-- Exhaustive behaviour of the add helper: either a subset-style no-op,
or exactly one add call with the computed add list. -/
theorem add_hosts_cases (st : HGArray) (n : String) (hs : List String) :
    (add_hosts_to_hostgroup st n hs = (false, st, []) ∧
      ∀ x ∈ hs, x ∈ existingHostsOf st n) ∨
    (add_hosts_to_hostgroup st n hs =
      (true,
       st.applyCall (.addHosts n (get_add_hosts (existingHostsOf st n) hs)),
       [HGCall.addHosts n (get_add_hosts (existingHostsOf st n) hs)])) := by
  by_cases hc : hs ≠ [] ∧ ∀ x ∈ hs, x ∈ existingHostsOf st n
  · left
    exact ⟨by unfold add_hosts_to_hostgroup; rw [if_pos hc], hc.2⟩
  · by_cases hl : (get_add_hosts (existingHostsOf st n) hs).length > 0
    · right
      unfold add_hosts_to_hostgroup
      rw [if_neg hc, if_pos hl]
    · left
      have hnil : get_add_hosts (existingHostsOf st n) hs = [] := by
        cases hx : get_add_hosts (existingHostsOf st n) hs
        · rfl
        · rw [hx] at hl
          simp at hl
      constructor
      · unfold add_hosts_to_hostgroup
        rw [if_neg hc, hnil]
        simp
      · intro x hx
        by_contra hxe
        have : x ∈ get_add_hosts (existingHostsOf st n) hs := by
          unfold get_add_hosts
          rw [List.mem_filter]
          exact ⟨hx, by simpa using hxe⟩
        rw [hnil] at this
        exact absurd this (by simp)

/-- Exhaustive behaviour of the remove helper: a no-op, or exactly one
remove call with the computed remove list. -/
theorem remove_hosts_cases (st : HGArray) (n : String) (hs : List String) :
    (remove_hosts_from_hostgroup st n hs = (false, st, []) ∧
      ∀ x ∈ existingHostsOf st n, x ∉ hs) ∨
    (remove_hosts_from_hostgroup st n hs =
      (true,
       st.applyCall (.removeHosts n (get_remove_hosts (existingHostsOf st n) hs)),
       [HGCall.removeHosts n (get_remove_hosts (existingHostsOf st n) hs)])) := by
  by_cases he : existingHostsOf st n = []
  · left
    constructor
    · unfold remove_hosts_from_hostgroup
      rw [if_pos he]
    · rw [he]
      simp
  · by_cases hl : (get_remove_hosts (existingHostsOf st n) hs).length > 0
    · right
      unfold remove_hosts_from_hostgroup
      rw [if_neg he, if_pos hl]
    · left
      have hnil : get_remove_hosts (existingHostsOf st n) hs = [] := by
        cases hx : get_remove_hosts (existingHostsOf st n) hs
        · rfl
        · rw [hx] at hl
          simp at hl
      constructor
      · unfold remove_hosts_from_hostgroup
        rw [if_neg he, hnil]
        simp
      · intro x hx hxs
        have : x ∈ get_remove_hosts (existingHostsOf st n) hs := by
          unfold get_remove_hosts
          rw [List.mem_filter]
          exact ⟨hx, by simpa using hxs⟩
        rw [hnil] at this
        exact absurd this (by simp)

end HG

namespace HG

@[simp]
theorem withPrefix_nil (s : HGStep) : s.withPrefix [] = s := by
  cases s <;> simp [HGStep.withPrefix]

theorem modify_host_flags_noop (st : HGArray) (n : String) (r : ReceivedFlags)
    (g : HGroup) (h : st.getHostgroup n = some g)
    (hfl : applyModifyFlags r g.flags = g.flags) :
    modify_host_flags st n r = .halt (.exited false) st [] := by
  unfold modify_host_flags
  rw [h]
  simp only []
  rw [if_pos hfl]

theorem modify_host_flags_call (st : HGArray) (n : String) (r : ReceivedFlags)
    (g : HGroup) (h : st.getHostgroup n = some g)
    (hfl : applyModifyFlags r g.flags ≠ g.flags) :
    modify_host_flags st n r = .cont true
      (st.applyCall (.modifyFlags n (applyModifyFlags r g.flags)))
      [.modifyFlags n (applyModifyFlags r g.flags)] := by
  unfold modify_host_flags
  rw [h]
  simp only []
  rw [if_neg hfl]

/-- With an existing group, the run is the block chain after the skipped
create block. -/
theorem hg_perform_decomp (st : HGArray) (p : HGParams) (g : HGroup)
    (hg : st.getHostgroup p.hostgroup_name = some g) :
    perform_module_operation st p =
      (match ((((block_add p (some g) false st).seq
          (block_remove p (some g))).seq
          (block_flags p (some g))).seq
          (block_rename p (some g))).seq
          (block_delete p (some g)) with
       | .halt o st1 tr => ⟨o, st1, tr⟩
       | .cont c st1 tr => ⟨.exited c, st1, tr⟩) := by
  have hb1 : block_create p (some g) st = .cont false st [] := by
    unfold block_create
    rw [if_neg (by simp)]
  simp only [perform_module_operation, hg, hb1, seq_cont, withPrefix_nil]

theorem hg_absent_none (st : HGArray) (p : HGParams)
    (hp : p.state = DState.absent)
    (h : st.getHostgroup p.hostgroup_name = none) :
    perform_module_operation st p = ⟨.exited false, st, []⟩ := by
  cases hh : p.hosts <;> cases hn : p.new_name <;>
    simp [perform_module_operation, h, hp, hh, hn, block_create, block_add,
      block_remove, block_flags, block_rename, block_delete]

theorem hg_absent_some (st : HGArray) (p : HGParams) (g : HGroup)
    (hp : p.state = DState.absent)
    (hg : st.getHostgroup p.hostgroup_name = some g) :
    perform_module_operation st p =
      ⟨.exited true, st.applyCall (.deleteGroup p.hostgroup_name),
       [.deleteGroup p.hostgroup_name]⟩ := by
  cases hh : p.hosts <;> cases hn : p.new_name <;>
    simp [perform_module_operation, hg, hp, hh, hn, block_create, block_add,
      block_remove, block_flags, block_rename, block_delete]

theorem hg_present_none_nameEmpty (st : HGArray) (p : HGParams)
    (hp : p.state = DState.present)
    (h : st.getHostgroup p.hostgroup_name = none)
    (hname : p.hostgroup_name = "") :
    perform_module_operation st p = ⟨.exited false, st, []⟩ := by
  rw [hname] at h
  cases hh : p.hosts <;> cases hn : p.new_name <;>
    simp [perform_module_operation, h, hp, hh, hn, hname, block_create,
      block_add, block_remove, block_flags, block_rename, block_delete]

/-- With no existing group, state 'present' and a truthy name, the run is
exactly the create block. -/
theorem hg_present_create (st : HGArray) (p : HGParams)
    (hp : p.state = DState.present)
    (h : st.getHostgroup p.hostgroup_name = none)
    (hname : p.hostgroup_name ≠ "") :
    perform_module_operation st p =
      (match create_hostgroup st p with
       | .halt o st1 tr => ⟨o, st1, tr⟩
       | .cont c st1 tr => ⟨.exited c, st1, tr⟩) := by
  have hb1 : block_create p none st = create_hostgroup st p := by
    unfold block_create
    rw [if_pos ⟨hp, rfl, hname⟩]
  cases hc : create_hostgroup st p with
  | halt o st1 tr =>
    simp [perform_module_operation, h, hb1, hc]
  | cont c st1 tr =>
    cases hh : p.hosts <;> cases hn : p.new_name <;>
      simp [perform_module_operation, h, hb1, hc, hp, hh, hn, block_add,
        block_remove, block_flags, block_rename, block_delete]

/-- The create helper builds an empty group whenever hosts are absent or
empty, or host_state is unset or 'absent-in-group'. -/
theorem create_hostgroup_empty (st : HGArray) (p : HGParams)
    (hemp : p.hosts = none ∨ p.hosts = some [] ∨ p.host_state = none ∨
      p.host_state = some GDirective.absentInGroup) :
    create_hostgroup st p = .cont true
      (st.applyCall (.createEmpty p.hostgroup_name
        (create_host_flags_dict p.host_flags)))
      [.createEmpty p.hostgroup_name (create_host_flags_dict p.host_flags)] := by
  unfold create_hostgroup
  cases hh : p.hosts with
  | none => rfl
  | some hs =>
    cases hs with
    | nil =>
      cases hhs : p.host_state with
      | none => rfl
      | some d => cases d <;> rfl
    | cons a t =>
      cases hhs : p.host_state with
      | none => rfl
      | some d =>
        cases d with
        | presentInGroup =>
          rcases hemp with h | h | h | h <;> simp_all
        | absentInGroup => rfl

/-- The create helper with a non-empty host list: all hosts exist, so the
create call carries the host list. -/
theorem create_hostgroup_with_hosts (st : HGArray) (p : HGParams)
    (hs : List String) (hh : p.hosts = some hs)
    (hps : p.host_state = some GDirective.presentInGroup) (hne : hs ≠ [])
    (hall : ∀ x ∈ hs, x ∈ st.hostsOnArray) :
    create_hostgroup st p = .cont true
      (st.applyCall (.createWithHosts p.hostgroup_name
        (create_host_flags_dict p.host_flags) hs))
      [.createWithHosts p.hostgroup_name
        (create_host_flags_dict p.host_flags) hs] := by
  unfold create_hostgroup
  rw [hh, hps]
  cases hs with
  | nil => exact absurd rfl hne
  | cons a t =>
    simp only []
    have hfind : (a :: t).find? (fun x => decide (x ∉ st.hostsOnArray)) = none := by
      rw [List.find?_eq_none]
      intro x hx
      simpa using hall x hx
    rw [hfind]

/-- The create helper with a non-empty host list containing a host that is
missing on the array: the run fails before the create call. -/
theorem create_hostgroup_missing (st : HGArray) (p : HGParams)
    (hs : List String) (hh : p.hosts = some hs)
    (hps : p.host_state = some GDirective.presentInGroup) (hne : hs ≠ [])
    (hmiss : ∃ x ∈ hs, x ∉ st.hostsOnArray) :
    ∃ m ∈ hs, m ∉ st.hostsOnArray ∧
      create_hostgroup st p = .halt (.failed ("Create host group " ++
        p.hostgroup_name ++ " failed as the host " ++ m ++
        " does not exist")) st [] := by
  unfold create_hostgroup
  rw [hh, hps]
  cases hs with
  | nil => exact absurd rfl hne
  | cons a t =>
    have hsome : ((a :: t).find? (fun x => decide (x ∉ st.hostsOnArray))).isSome := by
      rw [List.find?_isSome]
      obtain ⟨x, hx, hxm⟩ := hmiss
      exact ⟨x, hx, by simpa using hxm⟩
    obtain ⟨m, hm⟩ := Option.isSome_iff_exists.mp hsome
    refine ⟨m, List.mem_of_find?_eq_some hm, ?_, ?_⟩
    · have := List.find?_some hm
      simpa using this
    · simp only []
      rw [hm]

end HG
namespace HG

/-- A run on an already-stable state (members already converged, flag diff
empty, no rename) exits with changed=false. -/
theorem hg_run_noop (st : HGArray) (p : HGParams) (g : HGroup)
    (hp : p.state = DState.present) (hn : p.new_name = none)
    (hg : st.getHostgroup p.hostgroup_name = some g)
    (hadd : ∀ hs, p.hosts = some hs →
        p.host_state = some GDirective.presentInGroup → ∀ x ∈ hs, x ∈ g.hosts)
    (hrem : ∀ hs, p.hosts = some hs →
        p.host_state = some GDirective.absentInGroup → ∀ x ∈ g.hosts, x ∉ hs)
    (hfl : p.host_flags.nonempty = true →
        applyModifyFlags p.host_flags g.flags = g.flags) :
    (perform_module_operation st p).outcome = RunOutcome.exited false := by
  rw [hg_perform_decomp st p g hg]
  have hb2 : ∀ c, block_add p (some g) c st = .cont c st [] := by
    intro c
    unfold block_add
    cases hh : p.hosts with
    | none => rfl
    | some hs =>
      simp only []
      by_cases hguard : p.state = DState.present ∧
          p.host_state = some GDirective.presentInGroup ∧
          (some g : Option HGroup) ≠ none ∧ hs ≠ []
      · rw [if_pos hguard]
        rw [add_noop st p.hostgroup_name hs ?hsub]
        · simp
        case hsub =>
          intro x hx
          rw [existingHostsOf_eq st _ g hg]
          exact hadd hs hh hguard.2.1 x hx
      · rw [if_neg hguard]
  have hb3 : ∀ c, block_remove p (some g) c st = .cont c st [] := by
    intro c
    unfold block_remove
    cases hh : p.hosts with
    | none => rfl
    | some hs =>
      simp only []
      by_cases hguard : p.state = DState.present ∧
          p.host_state = some GDirective.absentInGroup ∧
          (some g : Option HGroup) ≠ none ∧ hs ≠ []
      · rw [if_pos hguard]
        rw [remove_noop st p.hostgroup_name hs ?hdis]
        · simp
        case hdis =>
          intro x hx
          rw [existingHostsOf_eq st _ g hg] at hx
          exact hrem hs hh hguard.2.1 x hx
      · rw [if_neg hguard]
  by_cases hfguard : p.host_flags.nonempty = true
  · have hb4 : ∀ c, block_flags p (some g) c st = .halt (.exited false) st [] := by
      intro c
      unfold block_flags
      rw [if_pos ⟨hp, by simp, hfguard⟩]
      rw [modify_host_flags_noop st _ _ g hg (hfl hfguard)]
    simp only [hb2, hb3, hb4, seq_cont, seq_halt, withPrefix_nil]
  · have hb4 : ∀ c, block_flags p (some g) c st = .cont c st [] := by
      intro c
      unfold block_flags
      rw [if_neg (fun hcon => hfguard hcon.2.2)]
    have hb5 : ∀ c, block_rename p (some g) c st = .cont c st [] := by
      intro c
      unfold block_rename
      rw [hn]
    have hb6 : ∀ c, block_delete p (some g) c st = .cont c st [] := by
      intro c
      unfold block_delete
      rw [if_neg (fun hcon => by rw [hp] at hcon; exact absurd hcon.1 (by simp))]
    simp only [hb2, hb3, hb4, hb5, hb6, seq_cont, withPrefix_nil]

/-- The combined effect of the add and remove blocks on the fetched group:
the run continues, the group still exists with unchanged flags, and its
membership now satisfies the requested directive. -/
theorem hg_memb_blocks (st : HGArray) (p : HGParams) (g : HGroup)
    (hp : p.state = DState.present)
    (hg : st.getHostgroup p.hostgroup_name = some g) :
    ∃ c2 st2 tr2 g2,
      (block_add p (some g) false st).seq (block_remove p (some g)) =
        .cont c2 st2 tr2 ∧
      st2.getHostgroup p.hostgroup_name = some g2 ∧
      g2.flags = g.flags ∧
      (∀ hs, p.hosts = some hs → p.host_state = some GDirective.presentInGroup →
        ∀ x ∈ hs, x ∈ g2.hosts) ∧
      (∀ hs, p.hosts = some hs → p.host_state = some GDirective.absentInGroup →
        ∀ x ∈ g2.hosts, x ∉ hs) := by
  cases hh : p.hosts with
  | none =>
    refine ⟨false, st, [], g, ?_, hg, rfl, ?_, ?_⟩
    · have hb2 : block_add p (some g) false st = .cont false st [] := by
        unfold block_add
        rw [hh]
      have hb3 : block_remove p (some g) false st = .cont false st [] := by
        unfold block_remove
        rw [hh]
      simp only [hb2, hb3, seq_cont, withPrefix_cont, withPrefix_nil, List.append_nil, List.nil_append]
    · intro hs hh2 _ x hx
      exact Option.noConfusion hh2
    · intro hs hh2 _ x hx
      exact Option.noConfusion hh2
  | some hs =>
    cases hhs : p.host_state with
    | none =>
      refine ⟨false, st, [], g, ?_, hg, rfl, ?_, ?_⟩
      · have hb2 : block_add p (some g) false st = .cont false st [] := by
          unfold block_add
          rw [hh]
          simp only []
          rw [if_neg (fun hcon => by rw [hhs] at hcon; exact Option.noConfusion hcon.2.1)]
        have hb3 : block_remove p (some g) false st = .cont false st [] := by
          unfold block_remove
          rw [hh]
          simp only []
          rw [if_neg (fun hcon => by rw [hhs] at hcon; exact Option.noConfusion hcon.2.1)]
        simp only [hb2, hb3, seq_cont, withPrefix_cont, withPrefix_nil, List.append_nil, List.nil_append]
      · intro hs2 hh2 hps2
        exact absurd hps2 (by simp)
      · intro hs2 hh2 hps2
        exact absurd hps2 (by simp)
    | some d =>
      cases d with
      | presentInGroup =>
        have hb3 : ∀ c st0, block_remove p (some g) c st0 = .cont c st0 [] := by
          intro c st0
          unfold block_remove
          rw [hh]
          simp only []
          rw [if_neg (fun hcon => by
            rw [hhs] at hcon
            have := hcon.2.1
            simp at this)]
        rcases add_hosts_cases st p.hostgroup_name hs with ⟨hres, hsub⟩ | hres
        · refine ⟨false, st, [], g, ?_, hg, rfl, ?_, ?_⟩
          · have hb2 : block_add p (some g) false st = .cont false st [] := by
              unfold block_add
              rw [hh]
              simp only []
              by_cases hne : hs = []
              · rw [if_neg (fun hcon => hcon.2.2.2 hne)]
              · rw [if_pos ⟨hp, hhs, by simp, hne⟩, hres]
                rfl
            simp only [hb2, hb3, seq_cont, withPrefix_cont, withPrefix_nil, List.append_nil, List.nil_append]
          · intro hs2 hh2 _ x hx
            injection hh2 with hh2
            subst hh2
            have := hsub x hx
            rwa [existingHostsOf_eq st _ g hg] at this
          · intro hs2 hh2 hps2
            injection hps2 with hps2
            exact absurd hps2 (by simp)
        · by_cases hne : hs = []
          · rw [add_noop st p.hostgroup_name hs (by rw [hne]; simp)] at hres
            exact absurd hres (by simp)
          · refine ⟨true,
              st.applyCall (.addHosts p.hostgroup_name
                (get_add_hosts (existingHostsOf st p.hostgroup_name) hs)),
              [HGCall.addHosts p.hostgroup_name
                (get_add_hosts (existingHostsOf st p.hostgroup_name) hs)],
              ⟨g.hostGroupId,
               g.hosts ++ get_add_hosts (existingHostsOf st p.hostgroup_name) hs,
               g.flags⟩, ?_, ?_, rfl, ?_, ?_⟩
            · have hb2 : block_add p (some g) false st = .cont true
                  (st.applyCall (.addHosts p.hostgroup_name
                    (get_add_hosts (existingHostsOf st p.hostgroup_name) hs)))
                  [HGCall.addHosts p.hostgroup_name
                    (get_add_hosts (existingHostsOf st p.hostgroup_name) hs)] := by
                unfold block_add
                rw [hh]
                simp only []
                rw [if_pos ⟨hp, hhs, by simp, hne⟩, hres]
                rfl
              simp only [hb2, hb3, seq_cont, withPrefix_cont, withPrefix_nil, List.append_nil, List.nil_append]
            · exact getHostgroup_addHosts st _ _ g hg
            · intro hs2 hh2 _ x hx
              injection hh2 with hh2
              subst hh2
              by_cases hxe : x ∈ g.hosts
              · exact List.mem_append_left _ hxe
              · apply List.mem_append_right
                unfold get_add_hosts
                rw [List.mem_filter]
                rw [existingHostsOf_eq st _ g hg]
                exact ⟨hx, by simpa using hxe⟩
            · intro hs2 hh2 hps2
              injection hps2 with hps2
              exact absurd hps2 (by simp)
      | absentInGroup =>
        have hb2 : block_add p (some g) false st = .cont false st [] := by
          unfold block_add
          rw [hh]
          simp only []
          rw [if_neg (fun hcon => by
            rw [hhs] at hcon
            have := hcon.2.1
            simp at this)]
        rcases remove_hosts_cases st p.hostgroup_name hs with ⟨hres, hdis⟩ | hres
        · refine ⟨false, st, [], g, ?_, hg, rfl, ?_, ?_⟩
          · have hb3 : block_remove p (some g) false st = .cont false st [] := by
              unfold block_remove
              rw [hh]
              simp only []
              by_cases hne : hs = []
              · rw [if_neg (fun hcon => hcon.2.2.2 hne)]
              · rw [if_pos ⟨hp, hhs, by simp, hne⟩, hres]
                rfl
            simp only [hb2, hb3, seq_cont, withPrefix_cont, withPrefix_nil, List.append_nil, List.nil_append]
          · intro hs2 hh2 hps2
            injection hps2 with hps2
            exact absurd hps2 (by simp)
          · intro hs2 hh2 _ x hx
            injection hh2 with hh2
            subst hh2
            have := hdis x
            rw [existingHostsOf_eq st _ g hg] at this
            exact this hx
        · by_cases hne : hs = []
          · refine ⟨false, st, [], g, ?_, hg, rfl, ?_, ?_⟩
            · have hb3 : block_remove p (some g) false st = .cont false st [] := by
                unfold block_remove
                rw [hh]
                simp only []
                rw [if_neg (fun hcon => hcon.2.2.2 hne)]
              simp only [hb2, hb3, seq_cont, withPrefix_cont, withPrefix_nil, List.append_nil, List.nil_append]
            · intro hs2 hh2 hps2
              injection hps2 with hps2
              exact absurd hps2 (by simp)
            · intro hs2 hh2 _ x hx
              injection hh2 with hh2
              subst hh2
              subst hne
              simp
          · refine ⟨true,
              st.applyCall (.removeHosts p.hostgroup_name
                (get_remove_hosts (existingHostsOf st p.hostgroup_name) hs)),
              [HGCall.removeHosts p.hostgroup_name
                (get_remove_hosts (existingHostsOf st p.hostgroup_name) hs)],
              ⟨g.hostGroupId,
               g.hosts.filter (fun x => decide
                 (x ∉ get_remove_hosts (existingHostsOf st p.hostgroup_name) hs)),
               g.flags⟩, ?_, ?_, rfl, ?_, ?_⟩
            · have hb3 : block_remove p (some g) false st = .cont true
                  (st.applyCall (.removeHosts p.hostgroup_name
                    (get_remove_hosts (existingHostsOf st p.hostgroup_name) hs)))
                  [HGCall.removeHosts p.hostgroup_name
                    (get_remove_hosts (existingHostsOf st p.hostgroup_name) hs)] := by
                unfold block_remove
                rw [hh]
                simp only []
                rw [if_pos ⟨hp, hhs, by simp, hne⟩, hres]
                rfl
              simp only [hb2, hb3, seq_cont, withPrefix_cont, withPrefix_nil, List.append_nil, List.nil_append]
            · exact getHostgroup_removeHosts st _ _ g hg
            · intro hs2 hh2 hps2
              injection hps2 with hps2
              exact absurd hps2 (by simp)
            · intro hs2 hh2 _ x hx
              injection hh2 with hh2
              subst hh2
              rw [List.mem_filter] at hx
              intro hxs
              have hmem : x ∈ get_remove_hosts (existingHostsOf st p.hostgroup_name) hs := by
                unfold get_remove_hosts
                rw [List.mem_filter]
                rw [existingHostsOf_eq st _ g hg]
                exact ⟨hx.1, by simpa using hxs⟩
              have := hx.2
              simp only [decide_eq_true_eq] at this
              exact this hmem

end HG

namespace HG

/-- After a first run on an existing group (state 'present', no rename),
the group still exists and is stable: its members satisfy the directive
and a second flag application is a fixed point. -/
theorem hg_run1_stable (st : HGArray) (p : HGParams) (g : HGroup)
    (hp : p.state = DState.present) (hn : p.new_name = none)
    (hg : st.getHostgroup p.hostgroup_name = some g) :
    ∃ g1, (perform_module_operation st p).finalSt.getHostgroup
        p.hostgroup_name = some g1 ∧
      (∀ hs, p.hosts = some hs → p.host_state = some GDirective.presentInGroup →
          ∀ x ∈ hs, x ∈ g1.hosts) ∧
      (∀ hs, p.hosts = some hs → p.host_state = some GDirective.absentInGroup →
          ∀ x ∈ g1.hosts, x ∉ hs) ∧
      (p.host_flags.nonempty = true →
          applyModifyFlags p.host_flags g1.flags = g1.flags) := by
  obtain ⟨c2, st2, tr2, g2, hseq, hg2, hfl2, haddm, hremm⟩ :=
    hg_memb_blocks st p g hp hg
  rw [hg_perform_decomp st p g hg]
  have hb5 : ∀ c st0, block_rename p (some g) c st0 = .cont c st0 [] := by
    intro c st0
    unfold block_rename
    rw [hn]
  have hb6 : ∀ c st0, block_delete p (some g) c st0 = .cont c st0 [] := by
    intro c st0
    unfold block_delete
    rw [if_neg (fun hcon => by rw [hp] at hcon; exact absurd hcon.1 (by simp))]
  by_cases hfguard : p.host_flags.nonempty = true
  · by_cases heq : applyModifyFlags p.host_flags g2.flags = g2.flags
    · have hb4 : ∀ c, block_flags p (some g) c st2 =
          .halt (.exited false) st2 [] := by
        intro c
        unfold block_flags
        rw [if_pos ⟨hp, by simp, hfguard⟩]
        rw [modify_host_flags_noop st2 _ _ g2 hg2 heq]
      refine ⟨g2, ?_, haddm, hremm, fun _ => heq⟩
      simp only [hseq, seq_cont, seq_halt, hb4, withPrefix_cont,
        withPrefix_halt, withPrefix_nil, List.append_nil]
      exact hg2
    · have hb4 : ∀ c, block_flags p (some g) c st2 = .cont true
          (st2.applyCall (.modifyFlags p.hostgroup_name
            (applyModifyFlags p.host_flags g2.flags)))
          [.modifyFlags p.hostgroup_name
            (applyModifyFlags p.host_flags g2.flags)] := by
        intro c
        unfold block_flags
        rw [if_pos ⟨hp, by simp, hfguard⟩]
        rw [modify_host_flags_call st2 _ _ g2 hg2 heq]
        rfl
      refine ⟨⟨g2.hostGroupId, g2.hosts,
        applyModifyFlags p.host_flags g2.flags⟩, ?_, ?_, ?_, ?_⟩
      · simp only [hseq, seq_cont, hb4, hb5, hb6, withPrefix_cont,
          withPrefix_nil, List.append_nil]
        exact getHostgroup_modifyFlags st2 _ _ g2 hg2
      · intro hs hh hps x hx
        exact haddm hs hh hps x hx
      · intro hs hh hps x hx
        exact hremm hs hh hps x hx
      · intro _
        exact applyModifyFlags_idem p.host_flags g2.flags
  · have hb4 : ∀ c, block_flags p (some g) c st2 = .cont c st2 [] := by
      intro c
      unfold block_flags
      rw [if_neg (fun hcon => hfguard hcon.2.2)]
    refine ⟨g2, ?_, haddm, hremm, fun hne => absurd hne hfguard⟩
    simp only [hseq, seq_cont, hb4, hb5, hb6, withPrefix_cont,
      withPrefix_nil, List.append_nil]
    exact hg2

end HG

namespace UV

theorem opt_or_none {a : Type} (o : Option a) : o.or none = o := by
  cases o <;> rfl

theorem nameStep_eq (obj : VolAttrs) (p : VolParams) (x : ToUpdate) :
    nameStep obj p x = { x with name := (nameEntry obj p).or x.name } := by
  unfold nameStep nameEntry
  cases p.new_vol_name with
  | none => rfl
  | some nn =>
    simp only []
    by_cases hc : nn ≠ "" ∧ obj.name ≠ nn
    · rw [if_pos hc, if_pos hc]
      rfl
    · rw [if_neg hc, if_neg hc]
      rfl

theorem descStep_eq (obj : VolAttrs) (p : VolParams) (x : ToUpdate) :
    descStep obj p x =
      { x with description := (descEntry obj p).or x.description } := by
  unfold descStep descEntry
  cases p.description with
  | none => rfl
  | some d =>
    simp only []
    by_cases hc : d ≠ "" ∧ obj.description ≠ some d
    · rw [if_pos hc, if_pos hc]
      rfl
    · rw [if_neg hc, if_neg hc]
      rfl

theorem compressionStep_eq (obj : VolAttrs) (p : VolParams) (x : ToUpdate) :
    compressionStep obj p x =
      { x with is_compression := (compEntry obj p).or x.is_compression } := by
  unfold compressionStep compEntry
  cases p.compression with
  | none => rfl
  | some b =>
    simp only []
    by_cases hc : b ≠ obj.is_data_reduction_enabled
    · rw [if_pos hc, if_pos hc]
      rfl
    · rw [if_neg hc, if_neg hc]
      rfl

theorem spStep_eq (obj : VolAttrs) (p : VolParams) (x : ToUpdate) :
    spStep obj p x = { x with sp := (spEntry obj p).or x.sp } := by
  unfold spStep spEntry
  cases p.sp with
  | none => rfl
  | some s =>
    simp only []
    by_cases hc : s ≠ "" ∧ some s ≠ obj.current_node
    · rw [if_pos hc, if_pos hc]
      rfl
    · rw [if_neg hc, if_neg hc]
      rfl

theorem tieringStep_eq (obj : VolAttrs) (p : VolParams) (x : ToUpdate) :
    tieringStep obj p x =
      { x with tiering_policy := (tierEntry obj p).or x.tiering_policy } := by
  unfold tieringStep tierEntry
  cases p.tiering_policy with
  | none => rfl
  | some t =>
    simp only []
    by_cases hc : t ≠ "" ∧ some t ≠ obj.tiering_policy
    · rw [if_pos hc, if_pos hc]
      rfl
    · rw [if_neg hc, if_neg hc]
      rfl

theorem ioLimitStep_eq (obj : VolAttrs) (p : VolParams) (x : ToUpdate) :
    ioLimitStep obj p x =
      { x with io_limit_policy := (ioEntry obj p).or x.io_limit_policy } := by
  unfold ioLimitStep ioEntry
  cases p.io_limit_pol_id with
  | none => rfl
  | some i =>
    simp only []
    by_cases hc : obj.io_limit_policy = none ∨ obj.io_limit_policy ≠ some i
    · rw [if_pos hc, if_pos hc]
      rfl
    · rw [if_neg hc, if_neg hc]
      rfl

theorem snapSchedStep_eq (obj : VolAttrs) (p : VolParams) (x : ToUpdate) :
    snapSchedStep obj p x =
      { x with snap_schedule := (snapEntry obj p).or x.snap_schedule } := by
  unfold snapSchedStep snapEntry
  cases p.snap_schedule_name with
  | none => rfl
  | some s =>
    simp only []
    by_cases hs : s ≠ ""
    · rw [if_pos hs, if_pos hs]
      by_cases hc : obj.snap_sched_name = none ∨ obj.snap_sched_name ≠ some s
      · rw [if_pos hc, if_pos hc]
        rfl
      · rw [if_neg hc, if_neg hc]
        rfl
    · rw [if_neg hs, if_neg hs]
      rfl

theorem snapRemoveStep_eq (obj : VolAttrs) (p : VolParams) (x : ToUpdate) :
    snapRemoveStep obj p x =
      { x with is_snap_schedule_paused :=
          (pauseEntry obj p).or x.is_snap_schedule_paused } := by
  unfold snapRemoveStep pauseEntry
  cases p.snap_schedule_name with
  | none => rfl
  | some s =>
    simp only []
    by_cases hs : s = ""
    · rw [if_pos hs, if_pos hs]
      by_cases hb : obj.snap_sched_name.isSome = true
      · rw [if_pos hb, if_pos hb]
        rfl
      · rw [if_neg hb, if_neg hb]
        rfl
    · rw [if_neg hs, if_neg hs]
      rfl

theorem sizeStep_eq_of (obj : VolAttrs) (p : VolParams) (x : ToUpdate)
    (hnos : sizeNoShrink obj p) :
    sizeStep obj p x =
      Except.ok { x with size := (sizeEntry obj p).or x.size } := by
  unfold sizeStep sizeEntry
  cases hps : p.size with
  | none => rfl
  | some sz =>
    cases hpc : p.cap_unit with
    | none => rfl
    | some cu =>
      simp only []
      show (if sz ≠ 0 then
          (if get_size_bytes sz cu < obj.size_total then
            (Except.error "Volume size can be expanded only" :
              Except String ToUpdate)
          else if get_size_bytes sz cu > obj.size_total then
            Except.ok { x with size := some (get_size_bytes sz cu) }
          else Except.ok x)
        else Except.ok x) =
        Except.ok { x with size :=
          (if sz ≠ 0 ∧ get_size_bytes sz cu > obj.size_total
           then some (get_size_bytes sz cu) else none).or x.size }
      by_cases hz : sz ≠ 0
      · have hlt : ¬ get_size_bytes sz cu < obj.size_total :=
          hnos sz cu hps hpc hz
        rw [if_pos hz, if_neg hlt]
        by_cases hgt : get_size_bytes sz cu > obj.size_total
        · rw [if_pos hgt, if_pos (show sz ≠ 0 ∧
            get_size_bytes sz cu > obj.size_total from ⟨hz, hgt⟩)]
          rfl
        · rw [if_neg hgt, if_neg (show ¬(sz ≠ 0 ∧
            get_size_bytes sz cu > obj.size_total) from fun hcc => hgt hcc.2)]
          rfl
      · rw [if_neg hz, if_neg (show ¬(sz ≠ 0 ∧
          get_size_bytes sz cu > obj.size_total) from fun hcc => hz hcc.1)]
        rfl

theorem sizeStep_ok_noshrink (obj : VolAttrs) (p : VolParams)
    (x y : ToUpdate) (h : sizeStep obj p x = Except.ok y) :
    sizeNoShrink obj p := by
  intro sz cu hps hpc hz hlt
  unfold sizeStep at h
  rw [hps, hpc] at h
  simp only [] at h
  rw [if_pos hz] at h
  have h2 : (if get_size_bytes sz cu < obj.size_total then
      (Except.error "Volume size can be expanded only" :
        Except String ToUpdate)
    else if get_size_bytes sz cu > obj.size_total then
      Except.ok { x with size := some (get_size_bytes sz cu) }
    else Except.ok x) = Except.ok y := h
  rw [if_pos hlt] at h2
  exact Except.noConfusion h2

theorem vmr_eq (obj : VolAttrs) (p : VolParams)
    (hthin : thinMismatch obj p = false) (hnos : sizeNoShrink obj p) :
    volume_modify_required obj p = finalize (updateOf obj p) := by
  show (match sizeStep obj p (descStep obj p (nameStep obj p emptyUpdate)) with
    | Except.error m => (Except.error m : Except String (Option ToUpdate))
    | Except.ok u3 =>
      if thinMismatch obj p then
        Except.error "Modifying is_thin is not allowed"
      else finalize (snapRemoveStep obj p (snapSchedStep obj p
        (ioLimitStep obj p (tieringStep obj p (spStep obj p
          (compressionStep obj p u3))))))) = finalize (updateOf obj p)
  rw [sizeStep_eq_of obj p _ hnos]
  simp only []
  rw [hthin]
  rw [if_neg Bool.false_ne_true]
  rw [nameStep_eq, descStep_eq, compressionStep_eq, spStep_eq,
    tieringStep_eq, ioLimitStep_eq, snapSchedStep_eq, snapRemoveStep_eq]
  congr 1
  simp [updateOf, emptyUpdate, opt_or_none]

theorem vmr_first_char (obj : VolAttrs) (p : VolParams) (u : ToUpdate)
    (h : volume_modify_required obj p = Except.ok (some u)) :
    u = updateOf obj p ∧ thinMismatch obj p = false ∧
      sizeNoShrink obj p := by
  have h2 : (match sizeStep obj p (descStep obj p (nameStep obj p
      emptyUpdate)) with
    | Except.error m => (Except.error m : Except String (Option ToUpdate))
    | Except.ok u3 =>
      if thinMismatch obj p then
        Except.error "Modifying is_thin is not allowed"
      else finalize (snapRemoveStep obj p (snapSchedStep obj p
        (ioLimitStep obj p (tieringStep obj p (spStep obj p
          (compressionStep obj p u3))))))) = Except.ok (some u) := h
  cases hs : sizeStep obj p (descStep obj p (nameStep obj p emptyUpdate)) with
  | error m =>
    rw [hs] at h2
    exact Except.noConfusion h2
  | ok u3 =>
    have hnos := sizeStep_ok_noshrink obj p _ u3 hs
    rw [hs] at h2
    simp only [] at h2
    cases ht : thinMismatch obj p with
    | true =>
      rw [ht] at h2
      rw [if_pos rfl] at h2
      exact Except.noConfusion h2
    | false =>
      refine ⟨?_, rfl, hnos⟩
      have he := vmr_eq obj p ht hnos
      rw [he] at h
      unfold finalize at h
      by_cases hne : updateOf obj p ≠ emptyUpdate
      · rw [if_pos hne] at h
        injection h with h
        injection h with h
        exact h.symm
      · rw [if_neg hne] at h
        injection h with h
        exact Option.noConfusion h

theorem nameEntry_idem (obj : VolAttrs) (p : VolParams) :
    nameEntry (applyUpdate obj (updateOf obj p)) p = none := by
  show (match p.new_vol_name with
    | some nn => if nn ≠ "" ∧ (nameEntry obj p).getD obj.name ≠ nn
        then some nn else none
    | none => none) = none
  cases hn : p.new_vol_name with
  | none => rfl
  | some nn =>
    simp only []
    by_cases hc : nn ≠ "" ∧ obj.name ≠ nn
    · have he : nameEntry obj p = some nn := by
        unfold nameEntry
        rw [hn]
        simp only []
        rw [if_pos hc]
      rw [he, if_neg (fun hcc => hcc.2 rfl)]
    · have he : nameEntry obj p = none := by
        unfold nameEntry
        rw [hn]
        simp only []
        rw [if_neg hc]
      rw [he, if_neg (fun hcc => hc ⟨hcc.1, hcc.2⟩)]

theorem descEntry_idem (obj : VolAttrs) (p : VolParams) :
    descEntry (applyUpdate obj (updateOf obj p)) p = none := by
  show (match p.description with
    | some d => if d ≠ "" ∧ (descEntry obj p).or obj.description ≠ some d
        then some d else none
    | none => none) = none
  cases hd : p.description with
  | none => rfl
  | some d =>
    simp only []
    by_cases hc : d ≠ "" ∧ obj.description ≠ some d
    · have he : descEntry obj p = some d := by
        unfold descEntry
        rw [hd]
        simp only []
        rw [if_pos hc]
      rw [he, if_neg (fun hcc => hcc.2 rfl)]
    · have he : descEntry obj p = none := by
        unfold descEntry
        rw [hd]
        simp only []
        rw [if_neg hc]
      rw [he, if_neg (fun hcc => hc ⟨hcc.1, hcc.2⟩)]

theorem sizeEntry_idem (obj : VolAttrs) (p : VolParams) :
    sizeEntry (applyUpdate obj (updateOf obj p)) p = none := by
  show (match p.size, p.cap_unit with
    | some sz, some cu =>
      if sz ≠ 0 ∧ get_size_bytes sz cu > (sizeEntry obj p).getD obj.size_total
      then some (get_size_bytes sz cu) else none
    | _, _ => none) = none
  cases hps : p.size with
  | none => rfl
  | some sz =>
    cases hpc : p.cap_unit with
    | none => rfl
    | some cu =>
      simp only []
      by_cases hc : sz ≠ 0 ∧ get_size_bytes sz cu > obj.size_total
      · have he : sizeEntry obj p = some (get_size_bytes sz cu) := by
          unfold sizeEntry
          rw [hps, hpc]
          simp only []
          rw [if_pos hc]
        rw [he, if_neg (fun hcc => Nat.lt_irrefl _ hcc.2)]
      · have he : sizeEntry obj p = none := by
          unfold sizeEntry
          rw [hps, hpc]
          simp only []
          rw [if_neg hc]
        rw [he, if_neg (fun hcc => hc ⟨hcc.1, hcc.2⟩)]

theorem compEntry_idem (obj : VolAttrs) (p : VolParams) :
    compEntry (applyUpdate obj (updateOf obj p)) p = none := by
  show (match p.compression with
    | some b => if b ≠ (compEntry obj p).getD obj.is_data_reduction_enabled
        then some b else none
    | none => none) = none
  cases hb : p.compression with
  | none => rfl
  | some b =>
    simp only []
    by_cases hc : b ≠ obj.is_data_reduction_enabled
    · have he : compEntry obj p = some b := by
        unfold compEntry
        rw [hb]
        simp only []
        rw [if_pos hc]
      rw [he, if_neg (fun hcc => hcc rfl)]
    · have he : compEntry obj p = none := by
        unfold compEntry
        rw [hb]
        simp only []
        rw [if_neg hc]
      rw [he]
      exact if_neg hc

theorem spEntry_idem (obj : VolAttrs) (p : VolParams) :
    spEntry (applyUpdate obj (updateOf obj p)) p = none := by
  show (match p.sp with
    | some s => if s ≠ "" ∧ some s ≠ (spEntry obj p).or obj.current_node
        then some s else none
    | none => none) = none
  cases hsp : p.sp with
  | none => rfl
  | some s =>
    simp only []
    by_cases hc : s ≠ "" ∧ some s ≠ obj.current_node
    · have he : spEntry obj p = some s := by
        unfold spEntry
        rw [hsp]
        simp only []
        rw [if_pos hc]
      rw [he, if_neg (fun hcc => hcc.2 rfl)]
    · have he : spEntry obj p = none := by
        unfold spEntry
        rw [hsp]
        simp only []
        rw [if_neg hc]
      rw [he, if_neg (fun hcc => hc ⟨hcc.1, hcc.2⟩)]

theorem tierEntry_idem (obj : VolAttrs) (p : VolParams) :
    tierEntry (applyUpdate obj (updateOf obj p)) p = none := by
  show (match p.tiering_policy with
    | some t => if t ≠ "" ∧ some t ≠ (tierEntry obj p).or obj.tiering_policy
        then some t else none
    | none => none) = none
  cases htp : p.tiering_policy with
  | none => rfl
  | some t =>
    simp only []
    by_cases hc : t ≠ "" ∧ some t ≠ obj.tiering_policy
    · have he : tierEntry obj p = some t := by
        unfold tierEntry
        rw [htp]
        simp only []
        rw [if_pos hc]
      rw [he, if_neg (fun hcc => hcc.2 rfl)]
    · have he : tierEntry obj p = none := by
        unfold tierEntry
        rw [htp]
        simp only []
        rw [if_neg hc]
      rw [he, if_neg (fun hcc => hc ⟨hcc.1, hcc.2⟩)]

theorem ioEntry_idem (obj : VolAttrs) (p : VolParams) :
    ioEntry (applyUpdate obj (updateOf obj p)) p = none := by
  show (match p.io_limit_pol_id with
    | some i =>
      if (ioEntry obj p).or obj.io_limit_policy = none ∨
        (ioEntry obj p).or obj.io_limit_policy ≠ some i
      then some i else none
    | none => none) = none
  cases hio : p.io_limit_pol_id with
  | none => rfl
  | some i =>
    simp only []
    by_cases hc : obj.io_limit_policy = none ∨ obj.io_limit_policy ≠ some i
    · have he : ioEntry obj p = some i := by
        unfold ioEntry
        rw [hio]
        simp only []
        rw [if_pos hc]
      rw [he, if_neg (fun hcc => hcc.elim
        (fun h1 => Option.noConfusion h1) (fun h2 => h2 rfl))]
    · have he : ioEntry obj p = none := by
        unfold ioEntry
        rw [hio]
        simp only []
        rw [if_neg hc]
      rw [he]
      exact if_neg hc

theorem snapEntry_idem (obj : VolAttrs) (p : VolParams) :
    snapEntry (applyUpdate obj (updateOf obj p)) p = none := by
  show (match p.snap_schedule_name with
    | some s =>
      if s ≠ "" then
        if (snapEntry obj p).or obj.snap_sched_name = none ∨
          (snapEntry obj p).or obj.snap_sched_name ≠ some s
        then some s else none
      else none
    | none => none) = none
  cases hsn : p.snap_schedule_name with
  | none => rfl
  | some s =>
    simp only []
    by_cases hs : s ≠ ""
    · rw [if_pos hs]
      by_cases hc : obj.snap_sched_name = none ∨ obj.snap_sched_name ≠ some s
      · have he : snapEntry obj p = some s := by
          unfold snapEntry
          rw [hsn]
          simp only []
          rw [if_pos hs, if_pos hc]
        rw [he, if_neg (fun hcc => hcc.elim
          (fun h1 => Option.noConfusion h1) (fun h2 => h2 rfl))]
      · have he : snapEntry obj p = none := by
          unfold snapEntry
          rw [hsn]
          simp only []
          rw [if_pos hs, if_neg hc]
        rw [he]
        exact if_neg hc
    · rw [if_neg hs]

theorem pauseEntry_idem (obj : VolAttrs) (p : VolParams)
    (hsnap : p.snap_schedule_name ≠ some "") :
    pauseEntry (applyUpdate obj (updateOf obj p)) p = none := by
  unfold pauseEntry
  cases hsn : p.snap_schedule_name with
  | none => rfl
  | some s =>
    simp only []
    have hs : ¬ s = "" := fun h => hsnap (by rw [hsn, h])
    rw [if_neg hs]

theorem thinMismatch_apply (obj : VolAttrs) (p : VolParams) (u : ToUpdate) :
    thinMismatch (applyUpdate obj u) p = thinMismatch obj p := by
  unfold thinMismatch
  cases p.is_thin with
  | none => rfl
  | some b => rfl

theorem sizeNoShrink_idem (obj : VolAttrs) (p : VolParams)
    (hnos : sizeNoShrink obj p) :
    sizeNoShrink (applyUpdate obj (updateOf obj p)) p := by
  intro sz cu hps hpc hz
  show ¬ get_size_bytes sz cu < (sizeEntry obj p).getD obj.size_total
  by_cases hc : sz ≠ 0 ∧ get_size_bytes sz cu > obj.size_total
  · have he : sizeEntry obj p = some (get_size_bytes sz cu) := by
      unfold sizeEntry
      rw [hps, hpc]
      simp only []
      rw [if_pos hc]
    rw [he]
    exact Nat.lt_irrefl _
  · have he : sizeEntry obj p = none := by
      unfold sizeEntry
      rw [hps, hpc]
      simp only []
      rw [if_neg hc]
    rw [he]
    exact hnos sz cu hps hpc hz

theorem modify_idem (obj : VolAttrs) (p : VolParams) (u : ToUpdate)
    (hsnap : p.snap_schedule_name ≠ some "")
    (h : volume_modify_required obj p = Except.ok (some u)) :
    volume_modify_required (applyUpdate obj u) p = Except.ok none := by
  obtain ⟨hu, hthin, hnos⟩ := vmr_first_char obj p u h
  subst hu
  have hthin2 : thinMismatch (applyUpdate obj (updateOf obj p)) p = false := by
    rw [thinMismatch_apply]
    exact hthin
  have hnos2 := sizeNoShrink_idem obj p hnos
  rw [vmr_eq _ p hthin2 hnos2]
  have hemp : updateOf (applyUpdate obj (updateOf obj p)) p = emptyUpdate := by
    show (⟨nameEntry (applyUpdate obj (updateOf obj p)) p,
      descEntry (applyUpdate obj (updateOf obj p)) p,
      sizeEntry (applyUpdate obj (updateOf obj p)) p,
      compEntry (applyUpdate obj (updateOf obj p)) p,
      spEntry (applyUpdate obj (updateOf obj p)) p,
      tierEntry (applyUpdate obj (updateOf obj p)) p,
      ioEntry (applyUpdate obj (updateOf obj p)) p,
      snapEntry (applyUpdate obj (updateOf obj p)) p,
      pauseEntry (applyUpdate obj (updateOf obj p)) p⟩ : ToUpdate) =
      emptyUpdate
    rw [nameEntry_idem, descEntry_idem, sizeEntry_idem, compEntry_idem,
      spEntry_idem, tierEntry_idem, ioEntry_idem, snapEntry_idem,
      pauseEntry_idem obj p hsnap]
    rfl
  rw [hemp]
  unfold finalize
  rw [if_neg (fun hne => hne rfl)]

end UV

/-- C2 amended: re-running the reconciliation immediately after a
successful run with the same parameters and no external drift yields
changed=false on the second run, for both cited modules, under the
provisos the counterexample forces.  Host-group module: provided no
rename is requested (new_name omitted — a rename leaves the group
unfindable under hostgroup_name, so the second run takes the create path
and re-creates it with changed=true) and every supplied host-flag value
is a documented spelling (bool, or "true"/"True"/"false"/"False"/
"unset"/"Unset" — for other truthy values the create and modify mappings
disagree).  Unity volume module: provided no snap-schedule removal is
requested (snap_schedule "" — its change-set entry
is_snap_schedule_paused=False pauses without detaching the schedule, so
the diff recomputes it every run): after a successful modify applying
the computed change-set, the second diff computes an empty change-set. -/
theorem c2_amended :
    (∀ (st : HG.HGArray) (p : HG.HGParams) (c : Bool),
      p.new_name = none → p.host_flags.canonical = true →
      (HG.perform_module_operation st p).outcome = RunOutcome.exited c →
      (HG.perform_module_operation
        (HG.perform_module_operation st p).finalSt p).outcome =
        RunOutcome.exited false) ∧
    (∀ (obj : UV.VolAttrs) (p : UV.VolParams) (u : UV.ToUpdate),
      p.snap_schedule_name ≠ some "" →
      UV.volume_modify_required obj p = Except.ok (some u) →
      UV.volume_modify_required (UV.applyUpdate obj u) p =
        Except.ok none) := by
  refine ⟨?_, fun obj p u hsnap h1 => UV.modify_idem obj p u hsnap h1⟩
  intro st p c hn hc h1
  cases hp : p.state with
  | absent =>
    cases hgv : st.getHostgroup p.hostgroup_name with
    | none =>
      have e1 := HG.hg_absent_none st p hp hgv
      simp [e1]
    | some g =>
      have e1 := HG.hg_absent_some st p g hp hgv
      have e2 := HG.hg_absent_none
        (st.applyCall (.deleteGroup p.hostgroup_name)) p hp
        (HG.getHostgroup_delete st p.hostgroup_name)
      simp [e1, e2]
  | present =>
    cases hgv : st.getHostgroup p.hostgroup_name with
    | some g =>
      obtain ⟨g1, hge, hadd, hrem, hfl⟩ := HG.hg_run1_stable st p g hp hn hgv
      exact HG.hg_run_noop _ p g1 hp hn hge hadd hrem hfl
    | none =>
      by_cases hname : p.hostgroup_name = ""
      · have e1 := HG.hg_present_none_nameEmpty st p hp hgv hname
        simp [e1]
      · have e1 := HG.hg_present_create st p hp hgv hname
        by_cases hwith : ∃ hs, p.hosts = some hs ∧
            p.host_state = some GDirective.presentInGroup ∧ hs ≠ []
        · obtain ⟨hs, hh, hps, hne⟩ := hwith
          by_cases hall : ∀ x ∈ hs, x ∈ st.hostsOnArray
          · have ec := HG.create_hostgroup_with_hosts st p hs hh hps hne hall
            have e2 : (HG.perform_module_operation st p).finalSt =
                st.applyCall (.createWithHosts p.hostgroup_name
                  (HG.create_host_flags_dict p.host_flags) hs) := by
              rw [e1, ec]
            rw [e2]
            apply HG.hg_run_noop _ p
              ⟨p.hostgroup_name, hs, HG.create_host_flags_dict p.host_flags⟩
              hp hn
            · exact HG.getHostgroup_createWithHosts st _ _ hs hgv
            · intro hs2 hh2 hps2 x hx
              rw [hh] at hh2
              injection hh2 with hh2
              subst hh2
              exact hx
            · intro hs2 hh2 hps2
              rw [hps] at hps2
              injection hps2 with hps2
              exact absurd hps2 (by simp)
            · intro _
              exact HG.applyModify_create_stable p.host_flags hc
          · push_neg at hall
            obtain ⟨m, hm, hmm, ec⟩ :=
              HG.create_hostgroup_missing st p hs hh hps hne
                ⟨hall.choose, hall.choose_spec.1, hall.choose_spec.2⟩
            rw [e1, ec] at h1
            simp at h1
        · have hemp : p.hosts = none ∨ p.hosts = some [] ∨
              p.host_state = none ∨
              p.host_state = some GDirective.absentInGroup := by
            by_cases hhx : ∃ hs, p.hosts = some hs
            · obtain ⟨hs, hh⟩ := hhx
              cases hs with
              | nil => exact Or.inr (Or.inl hh)
              | cons a t =>
                cases hhs : p.host_state with
                | none => exact Or.inr (Or.inr (Or.inl rfl))
                | some d =>
                  cases d with
                  | presentInGroup =>
                    exact absurd ⟨a :: t, hh, hhs, by simp⟩ hwith
                  | absentInGroup => exact Or.inr (Or.inr (Or.inr rfl))
            · left
              cases hhy : p.hosts with
              | none => rfl
              | some hs => exact absurd ⟨hs, hhy⟩ hhx
          have ec := HG.create_hostgroup_empty st p hemp
          have e2 : (HG.perform_module_operation st p).finalSt =
              st.applyCall (.createEmpty p.hostgroup_name
                (HG.create_host_flags_dict p.host_flags)) := by
            rw [e1, ec]
          rw [e2]
          apply HG.hg_run_noop _ p
            ⟨p.hostgroup_name, [], HG.create_host_flags_dict p.host_flags⟩
            hp hn
          · exact HG.getHostgroup_createEmpty st _ _ hgv
          · intro hs2 hh2 hps2 x hx
            exfalso
            rcases hemp with h | h | h | h
            · rw [h] at hh2
              exact Option.noConfusion hh2
            · rw [h] at hh2
              injection hh2 with hh2
              subst hh2
              simp at hx
            · rw [h] at hps2
              exact Option.noConfusion hps2
            · rw [h] at hps2
              injection hps2 with hps2
              exact absurd hps2 (by simp)
          · intro hs2 hh2 hps2 x hx
            simp at hx
          · intro _
            exact HG.applyModify_create_stable p.host_flags hc

/-- C2 amended, witness: a plain state-present host-group run on an
existing group run twice, and a Unity volume grow re-diffed on the volume
state after the modify applied. -/
theorem c2_amended_witness :
    ((HG.perform_module_operation
      (HG.perform_module_operation hgStOne hgParamsPlain).finalSt
      hgParamsPlain).outcome = RunOutcome.exited false) ∧
    UV.volume_modify_required
      (UV.applyUpdate uvVolTwoGb
        ⟨none, none, some (3 * 1024 ^ 3), none, none, none, none, none,
         none⟩)
      (uvParamsSize 3) = Except.ok none :=
  ⟨c2_amended.1 hgStOne hgParamsPlain false rfl rfl rfl,
   c2_amended.2 uvVolTwoGb (uvParamsSize 3)
     ⟨none, none, some (3 * 1024 ^ 3), none, none, none, none, none, none⟩
     (by decide) rfl⟩

namespace CG

theorem splitSpecs_byId_aux (ids : List String) (acc : List String × List String) :
    ((ids.map VolSpec.byId).foldl splitStep acc).2 = acc.2 ∧
    ∀ x ∈ ((ids.map VolSpec.byId).foldl splitStep acc).1,
      x ∈ acc.1 ∨ x ∈ ids := by
  induction ids generalizing acc with
  | nil => exact ⟨rfl, fun x hx => Or.inl hx⟩
  | cons a t ih =>
    rw [List.map_cons, List.foldl_cons]
    obtain ⟨h1, h2⟩ := ih (splitStep acc (VolSpec.byId a))
    constructor
    · rw [h1]
      simp only [splitStep]
      split <;> rfl
    · intro x hx
      rcases h2 x hx with hx2 | hx2
      · simp only [splitStep] at hx2
        split at hx2
        · exact Or.inl hx2
        · rw [List.mem_append] at hx2
          rcases hx2 with h | h
          · exact Or.inl h
          · simp only [List.mem_singleton] at h
            subst h
            exact Or.inr (by simp)
      · exact Or.inr (List.mem_cons_of_mem _ hx2)

theorem splitSpecs_byId (ids : List String) :
    (splitSpecs (ids.map VolSpec.byId)).2 = [] ∧
    ∀ x ∈ (splitSpecs (ids.map VolSpec.byId)).1, x ∈ ids := by
  obtain ⟨h1, h2⟩ := splitSpecs_byId_aux ids ([], [])
  refine ⟨h1, fun x hx => ?_⟩
  rcases h2 x hx with h | h
  · exact absurd h (by simp)
  · exact h

theorem cg_fold_skip (existing : List String) (l : List String)
    (acc : List String) (h : ∀ x ∈ l, x ∉ existing) :
    l.foldl (fun acc i => if i ∈ existing ∧ i ∉ acc then acc ++ [i] else acc)
      acc = acc := by
  induction l generalizing acc with
  | nil => rfl
  | cons a t ih =>
    rw [List.foldl_cons, if_neg (fun hcon => (h a (by simp)) hcon.1)]
    exact ih _ (fun x hx => h x (List.mem_cons_of_mem _ hx))

/-- Removing only by id with no requested id a member: no lookup, no call,
returns False. -/
theorem cg_remove_noop (st : CGArray) (pcgid pcgname : Option String)
    (cgn : String) (ids : List String)
    (hnot : ∀ i ∈ ids, i ∉ existingLunsOf st cgn) :
    remove_volumes_from_cg st pcgid pcgname cgn (ids.map VolSpec.byId) =
      Except.ok (false, st, []) := by
  unfold remove_volumes_from_cg
  obtain ⟨h2, h1⟩ := splitSpecs_byId ids
  rw [h2]
  show (pure [] >>= fun remFromNames => _) = _
  rw [pure_bind]
  simp only []
  rw [cg_fold_skip (existingLunsOf st cgn) _ []
    (fun x hx => hnot x (h1 x hx))]
  rfl

end CG

/-- C9: a membership reconciliation whose computed change list is empty
performs no mutating call and reports False for that sub-result instead of
failing: the host-group add helper when every requested host is already a
member, the host-group remove helper when no member is requested, and the
consistency-group remove path when no requested volume id is a member. -/
theorem c9_empty_noop :
    (∀ (st : HG.HGArray) (n : String) (hs : List String),
      (∀ x ∈ hs, x ∈ HG.existingHostsOf st n) →
      HG.add_hosts_to_hostgroup st n hs = (false, st, [])) ∧
    (∀ (st : HG.HGArray) (n : String) (hs : List String),
      (∀ x ∈ HG.existingHostsOf st n, x ∉ hs) →
      HG.remove_hosts_from_hostgroup st n hs = (false, st, [])) ∧
    (∀ (st : CG.CGArray) (pcgid pcgname : Option String) (cgn : String)
        (ids : List String),
      (∀ i ∈ ids, i ∉ CG.existingLunsOf st cgn) →
      CG.remove_volumes_from_cg st pcgid pcgname cgn
        (ids.map CG.VolSpec.byId) = Except.ok (false, st, [])) :=
  ⟨fun st n hs h => HG.add_noop st n hs h,
   fun st n hs h => HG.remove_noop st n hs h,
   fun st pcgid pcgname cgn ids h => CG.cg_remove_noop st pcgid pcgname cgn ids h⟩

/-- C9 witness: adding the already-present host a to g, removing the
absent host c from g, and removing the non-member volume v9 from mycg. -/
theorem c9_witness :
    HG.add_hosts_to_hostgroup ⟨[⟨"g", ["a"], HG.defaultHostFlags⟩], []⟩ "g"
      ["a"] = (false, ⟨[⟨"g", ["a"], HG.defaultHostFlags⟩], []⟩, []) ∧
    HG.remove_hosts_from_hostgroup ⟨[⟨"g", ["a"], HG.defaultHostFlags⟩], []⟩
      "g" ["c"] = (false, ⟨[⟨"g", ["a"], HG.defaultHostFlags⟩], []⟩, []) ∧
    CG.remove_volumes_from_cg cgStOne none (some "mycg") "mycg"
      (["v9"].map CG.VolSpec.byId) = Except.ok (false, cgStOne, []) :=
  ⟨c9_empty_noop.1 _ "g" ["a"] (by decide),
   c9_empty_noop.2.1 _ "g" ["c"] (by decide),
   c9_empty_noop.2.2 cgStOne none (some "mycg") "mycg" ["v9"] (by decide)⟩

namespace HG

theorem seq_calls_mem (s : HGStep) (f : Bool → HGArray → HGStep)
    (P : HGCall → Prop) (hs : ∀ x ∈ s.callsOf, P x)
    (hf : ∀ c st x, x ∈ (f c st).callsOf → P x) :
    ∀ x ∈ (s.seq f).callsOf, P x := by
  intro x hx
  cases s with
  | halt o st tr => exact hs x hx
  | cont c st tr =>
    rw [HGStep.seq] at hx
    cases hfc : (f c st) with
    | halt o2 st2 tr2 =>
      rw [hfc] at hx
      simp only [HGStep.withPrefix, HGStep.callsOf, List.mem_append] at hx
      rcases hx with hx | hx
      · exact hs x hx
      · exact hf c st x (by rw [hfc]; exact hx)
    | cont c2 st2 tr2 =>
      rw [hfc] at hx
      simp only [HGStep.withPrefix, HGStep.callsOf, List.mem_append] at hx
      rcases hx with hx | hx
      · exact hs x hx
      · exact hf c st x (by rw [hfc]; exact hx)

theorem add_hosts_calls_shape (st : HGArray) (n : String) (hs : List String)
    (x : HGCall) (h : x ∈ (add_hosts_to_hostgroup st n hs).2.2) :
    ∃ l, x = HGCall.addHosts n l := by
  rcases add_hosts_cases st n hs with ⟨hres, _⟩ | hres <;> rw [hres] at h
  · simp at h
  · simp only [List.mem_singleton] at h
    exact ⟨_, h⟩

theorem remove_hosts_calls_shape (st : HGArray) (n : String)
    (hs : List String) (x : HGCall)
    (h : x ∈ (remove_hosts_from_hostgroup st n hs).2.2) :
    ∃ l, x = HGCall.removeHosts n l := by
  rcases remove_hosts_cases st n hs with ⟨hres, _⟩ | hres <;> rw [hres] at h
  · simp at h
  · simp only [List.mem_singleton] at h
    exact ⟨_, h⟩

theorem create_hostgroup_calls_shape (st : HGArray) (p : HGParams)
    (x : HGCall) (h : x ∈ (create_hostgroup st p).callsOf) :
    (∃ f, x = HGCall.createEmpty p.hostgroup_name f) ∨
    (∃ f l, x = HGCall.createWithHosts p.hostgroup_name f l) := by
  unfold create_hostgroup at h
  split at h
  · rename_i hh hs2 _ _
    have h2 : x ∈ (match List.find? (fun x => decide (x ∉ st.hostsOnArray))
        (hh :: hs2) with
      | some missing => HGStep.halt (RunOutcome.failed ("Create host group "
          ++ p.hostgroup_name ++ " failed as the host " ++ missing ++
          " does not exist")) st []
      | none => HGStep.cont true (st.applyCall (HGCall.createWithHosts
          p.hostgroup_name (create_host_flags_dict p.host_flags)
          (hh :: hs2))) [HGCall.createWithHosts p.hostgroup_name
          (create_host_flags_dict p.host_flags) (hh :: hs2)]).callsOf := h
    cases hfind : List.find? (fun x => decide (x ∉ st.hostsOnArray))
        (hh :: hs2) with
    | some missing =>
      rw [hfind] at h2
      simp [HGStep.callsOf] at h2
    | none =>
      rw [hfind] at h2
      simp only [HGStep.callsOf, List.mem_singleton] at h2
      exact Or.inr ⟨_, _, h2⟩
  · simp only [HGStep.callsOf, List.mem_singleton] at h
    exact Or.inl ⟨_, h⟩

theorem block_create_calls (p : HGParams) (hostgroup : Option HGroup)
    (st : HGArray) (x : HGCall)
    (h : x ∈ (block_create p hostgroup st).callsOf) :
    (∃ f, x = HGCall.createEmpty p.hostgroup_name f) ∨
    (∃ f l, x = HGCall.createWithHosts p.hostgroup_name f l) := by
  unfold block_create at h
  split at h
  · exact create_hostgroup_calls_shape st p x h
  · simp [HGStep.callsOf] at h

theorem block_add_calls (p : HGParams) (hostgroup : Option HGroup) (c : Bool)
    (st : HGArray) (x : HGCall)
    (h : x ∈ (block_add p hostgroup c st).callsOf) :
    (∃ l, x = HGCall.addHosts p.hostgroup_name l) ∧
      p.host_state = some GDirective.presentInGroup := by
  unfold block_add at h
  split at h
  · split at h
    · rename_i hguard
      exact ⟨add_hosts_calls_shape _ _ _ _ h, hguard.2.1⟩
    · simp [HGStep.callsOf] at h
  · simp [HGStep.callsOf] at h

theorem block_remove_calls (p : HGParams) (hostgroup : Option HGroup)
    (c : Bool) (st : HGArray) (x : HGCall)
    (h : x ∈ (block_remove p hostgroup c st).callsOf) :
    (∃ l, x = HGCall.removeHosts p.hostgroup_name l) ∧
      p.host_state = some GDirective.absentInGroup := by
  unfold block_remove at h
  split at h
  · split at h
    · rename_i hguard
      exact ⟨remove_hosts_calls_shape _ _ _ _ h, hguard.2.1⟩
    · simp [HGStep.callsOf] at h
  · simp [HGStep.callsOf] at h

theorem modify_host_flags_calls (st : HGArray) (n : String)
    (r : ReceivedFlags) (x : HGCall)
    (h : x ∈ (modify_host_flags st n r).callsOf) :
    ∃ f, x = HGCall.modifyFlags n f := by
  unfold modify_host_flags at h
  split at h
  · simp [HGStep.callsOf] at h
  · rename_i g hg
    by_cases hflag : applyModifyFlags r g.flags = g.flags
    · rw [if_pos hflag] at h
      simp [HGStep.callsOf] at h
    · rw [if_neg hflag] at h
      simp only [HGStep.callsOf, List.mem_singleton] at h
      exact ⟨_, h⟩

theorem block_flags_calls (p : HGParams) (hostgroup : Option HGroup)
    (c : Bool) (st : HGArray) (x : HGCall)
    (h : x ∈ (block_flags p hostgroup c st).callsOf) :
    ∃ f, x = HGCall.modifyFlags p.hostgroup_name f := by
  unfold block_flags at h
  split at h
  · split at h
    · rename_i heq
      have := modify_host_flags_calls st p.hostgroup_name p.host_flags x
      rw [heq] at this
      exact this (by simpa [HGStep.callsOf] using h)
    · rename_i heq
      have := modify_host_flags_calls st p.hostgroup_name p.host_flags x
      rw [heq] at this
      exact this (by simpa [HGStep.callsOf] using h)
  · simp [HGStep.callsOf] at h

theorem block_rename_calls (p : HGParams) (hostgroup : Option HGroup)
    (c : Bool) (st : HGArray) (x : HGCall)
    (h : x ∈ (block_rename p hostgroup c st).callsOf) :
    ∃ nn, x = HGCall.renameGroup p.hostgroup_name nn := by
  unfold block_rename at h
  split at h
  · split at h
    · split at h
      · split at h
        · simp only [HGStep.callsOf, List.mem_singleton] at h
          exact ⟨_, h⟩
        · simp [HGStep.callsOf] at h
      · simp [HGStep.callsOf] at h
    · simp [HGStep.callsOf] at h
  · simp [HGStep.callsOf] at h

theorem block_delete_calls (p : HGParams) (hostgroup : Option HGroup)
    (c : Bool) (st : HGArray) (x : HGCall)
    (h : x ∈ (block_delete p hostgroup c st).callsOf) :
    x = HGCall.deleteGroup p.hostgroup_name := by
  unfold block_delete at h
  split at h
  · simp only [HGStep.callsOf, List.mem_singleton] at h
    exact h
  · simp [HGStep.callsOf] at h

theorem perform_calls_eq (st : HGArray) (p : HGParams) :
    (perform_module_operation st p).calls =
      ((((((block_create p (st.getHostgroup p.hostgroup_name) st).seq
        (block_add p (st.getHostgroup p.hostgroup_name))).seq
        (block_remove p (st.getHostgroup p.hostgroup_name))).seq
        (block_flags p (st.getHostgroup p.hostgroup_name))).seq
        (block_rename p (st.getHostgroup p.hostgroup_name))).seq
        (block_delete p (st.getHostgroup p.hostgroup_name))).callsOf := by
  show (match (((((block_create p (st.getHostgroup p.hostgroup_name) st).seq
      (block_add p (st.getHostgroup p.hostgroup_name))).seq
      (block_remove p (st.getHostgroup p.hostgroup_name))).seq
      (block_flags p (st.getHostgroup p.hostgroup_name))).seq
      (block_rename p (st.getHostgroup p.hostgroup_name))).seq
      (block_delete p (st.getHostgroup p.hostgroup_name)) with
    | HGStep.halt o st2 tr => (⟨o, st2, tr⟩ : HGResult)
    | HGStep.cont c st2 tr => (⟨RunOutcome.exited c, st2, tr⟩ : HGResult)).calls
    = (((((((block_create p (st.getHostgroup p.hostgroup_name) st).seq
      (block_add p (st.getHostgroup p.hostgroup_name))).seq
      (block_remove p (st.getHostgroup p.hostgroup_name))).seq
      (block_flags p (st.getHostgroup p.hostgroup_name))).seq
      (block_rename p (st.getHostgroup p.hostgroup_name))).seq
      (block_delete p (st.getHostgroup p.hostgroup_name))).callsOf)
  cases (((((block_create p (st.getHostgroup p.hostgroup_name) st).seq
      (block_add p (st.getHostgroup p.hostgroup_name))).seq
      (block_remove p (st.getHostgroup p.hostgroup_name))).seq
      (block_flags p (st.getHostgroup p.hostgroup_name))).seq
      (block_rename p (st.getHostgroup p.hostgroup_name))).seq
      (block_delete p (st.getHostgroup p.hostgroup_name)) <;> rfl

/-- Every call of a host-group run has one of the six block shapes, and
membership calls carry the directive that selected them. -/
theorem hg_calls_shape (st : HGArray) (p : HGParams) (x : HGCall)
    (h : x ∈ (perform_module_operation st p).calls) :
    (∃ f, x = HGCall.createEmpty p.hostgroup_name f) ∨
    (∃ f l, x = HGCall.createWithHosts p.hostgroup_name f l) ∨
    ((∃ l, x = HGCall.addHosts p.hostgroup_name l) ∧
      p.host_state = some GDirective.presentInGroup) ∨
    ((∃ l, x = HGCall.removeHosts p.hostgroup_name l) ∧
      p.host_state = some GDirective.absentInGroup) ∨
    (∃ f, x = HGCall.modifyFlags p.hostgroup_name f) ∨
    (∃ nn, x = HGCall.renameGroup p.hostgroup_name nn) ∨
    (x = HGCall.deleteGroup p.hostgroup_name) := by
  rw [perform_calls_eq] at h
  revert x
  apply seq_calls_mem
  · apply seq_calls_mem
    · apply seq_calls_mem
      · apply seq_calls_mem
        · apply seq_calls_mem
          · intro y hy
            rcases block_create_calls p _ st y hy with hc | hc
            · exact Or.inl hc
            · exact Or.inr (Or.inl hc)
          · intro c st0 y hy
            exact Or.inr (Or.inr (Or.inl (block_add_calls p _ c st0 y hy)))
        · intro c st0 y hy
          exact Or.inr (Or.inr (Or.inr (Or.inl
            (block_remove_calls p _ c st0 y hy))))
      · intro c st0 y hy
        exact Or.inr (Or.inr (Or.inr (Or.inr (Or.inl
          (block_flags_calls p _ c st0 y hy)))))
    · intro c st0 y hy
      exact Or.inr (Or.inr (Or.inr (Or.inr (Or.inr (Or.inl
        (block_rename_calls p _ c st0 y hy))))))
  · intro c st0 y hy
    exact Or.inr (Or.inr (Or.inr (Or.inr (Or.inr (Or.inr
      (block_delete_calls p _ c st0 y hy))))))

end HG

/-- C3: for set-valued membership reconciliation, the add-set under
'present-in-group' is requested minus existing, the remove-set under
'absent-in-group' is the intersection of existing and requested, and the
directive is exclusive at the call level: a 'present-in-group' run never
issues a remove-members call and an 'absent-in-group' run never issues an
add-members call. -/
theorem c3_set_directive :
    (∀ (existing requested : List String) (x : String),
      x ∈ HG.get_add_hosts existing requested ↔
        x ∈ requested ∧ x ∉ existing) ∧
    (∀ (existing requested : List String) (x : String),
      x ∈ HG.get_remove_hosts existing requested ↔
        x ∈ existing ∧ x ∈ requested) ∧
    (∀ (st : HG.HGArray) (p : HG.HGParams),
      p.host_state = some GDirective.presentInGroup →
      ∀ (n : String) (l : List String),
        HG.HGCall.removeHosts n l ∉
          (HG.perform_module_operation st p).calls) ∧
    (∀ (st : HG.HGArray) (p : HG.HGParams),
      p.host_state = some GDirective.absentInGroup →
      ∀ (n : String) (l : List String),
        HG.HGCall.addHosts n l ∉
          (HG.perform_module_operation st p).calls) := by
  refine ⟨?_, ?_, ?_, ?_⟩
  · intro existing requested x
    simp [HG.get_add_hosts, List.mem_filter]
  · intro existing requested x
    simp [HG.get_remove_hosts, List.mem_filter]
  · intro st p hdir n l hmem
    rcases HG.hg_calls_shape st p _ hmem with
      ⟨f, hx⟩ | ⟨f, ll, hx⟩ | ⟨⟨ll, hx⟩, hst⟩ | ⟨⟨ll, hx⟩, hst⟩ |
      ⟨f, hx⟩ | ⟨nn, hx⟩ | hx <;> simp_all
  · intro st p hdir n l hmem
    rcases HG.hg_calls_shape st p _ hmem with
      ⟨f, hx⟩ | ⟨f, ll, hx⟩ | ⟨⟨ll, hx⟩, hst⟩ | ⟨⟨ll, hx⟩, hst⟩ |
      ⟨f, hx⟩ | ⟨nn, hx⟩ | hx <;> simp_all

/-- C3 witness: concrete instances of the membership characterisations and
of the two directive-exclusivity parts. -/
theorem c3_witness :
    ("c" ∈ HG.get_add_hosts ["a", "b"] ["b", "c"] ↔
      "c" ∈ (["b", "c"] : List String) ∧ "c" ∉ (["a", "b"] : List String)) ∧
    ("b" ∈ HG.get_remove_hosts ["a", "b"] ["b", "c"] ↔
      "b" ∈ (["a", "b"] : List String) ∧ "b" ∈ (["b", "c"] : List String)) ∧
    HG.HGCall.removeHosts "g" ["h1"] ∉
      (HG.perform_module_operation hgStNoHosts hgParamsAddMissing).calls ∧
    HG.HGCall.addHosts "g" ["h1"] ∉
      (HG.perform_module_operation hgStNoHosts hgParamsRemoveDir).calls :=
  ⟨c3_set_directive.1 ["a", "b"] ["b", "c"] "c",
   c3_set_directive.2.1 ["a", "b"] ["b", "c"] "b",
   c3_set_directive.2.2.1 hgStNoHosts hgParamsAddMissing rfl "g" ["h1"],
   c3_set_directive.2.2.2 hgStNoHosts hgParamsRemoveDir rfl "g" ["h1"]⟩

/-- C8 counterexample: adding the host h1, which does not exist on the
array, to the existing group g issues the mutating add-members call and
exits changed=true; no existence check aborts the run first. -/
theorem c8_counterexample :
    "h1" ∉ hgStNoHosts.hostsOnArray ∧
    (HG.perform_module_operation hgStNoHosts hgParamsAddMissing).calls =
      [HG.HGCall.addHosts "g" ["h1"]] ∧
    (HG.perform_module_operation hgStNoHosts hgParamsAddMissing).outcome =
      RunOutcome.exited true := by
  refine ⟨by decide, by decide, by decide⟩

/-- C8 (amended): only the create path checks that each referenced host
exists before mutating: with a missing host it fails with a descriptive
message, mutates nothing, and issues no call. The add-members path issues
its mutating call whenever the computed add list is non-empty, with no
host-existence check at all. -/
theorem c8_amended (st : HG.HGArray) (p : HG.HGParams) (hs : List String)
    (hp : p.state = DState.present)
    (hnone : st.getHostgroup p.hostgroup_name = none)
    (hname : p.hostgroup_name ≠ "")
    (hh : p.hosts = some hs)
    (hps : p.host_state = some GDirective.presentInGroup)
    (hne : hs ≠ [])
    (hmiss : ∃ x ∈ hs, x ∉ st.hostsOnArray) :
    (∃ m ∈ hs, m ∉ st.hostsOnArray ∧
      HG.perform_module_operation st p =
        ⟨RunOutcome.failed ("Create host group " ++ p.hostgroup_name ++
          " failed as the host " ++ m ++ " does not exist"), st, []⟩) ∧
    (∀ (st2 : HG.HGArray) (n : String) (l : List String),
      ¬(l ≠ [] ∧ ∀ x ∈ l, x ∈ HG.existingHostsOf st2 n) →
      HG.get_add_hosts (HG.existingHostsOf st2 n) l ≠ [] →
      HG.add_hosts_to_hostgroup st2 n l =
        (true,
         st2.applyCall (HG.HGCall.addHosts n
           (HG.get_add_hosts (HG.existingHostsOf st2 n) l)),
         [HG.HGCall.addHosts n
           (HG.get_add_hosts (HG.existingHostsOf st2 n) l)])) := by
  constructor
  · obtain ⟨m, hm, hmarr, hcre⟩ :=
      HG.create_hostgroup_missing st p hs hh hps hne hmiss
    refine ⟨m, hm, hmarr, ?_⟩
    rw [HG.hg_present_create st p hp hnone hname, hcre]
  · intro st2 n l hno hadd
    rcases HG.add_hosts_cases st2 n l with ⟨heq, hsub⟩ | heq
    · exfalso
      by_cases hl : l = []
      · subst hl
        exact hadd rfl
      · exact hno ⟨hl, hsub⟩
    · exact heq

/-- C8 amended witness: creating g2 with the missing host h1 fails before
any call, while the add path issues its call for the same missing host. -/
theorem c8_amended_witness :
    (∃ m ∈ (["h1"] : List String), m ∉ hgStNoHosts.hostsOnArray ∧
      HG.perform_module_operation hgStNoHosts hgParamsCreateMissing =
        ⟨RunOutcome.failed ("Create host group " ++ "g2" ++
          " failed as the host " ++ m ++ " does not exist"),
         hgStNoHosts, []⟩) ∧
    HG.add_hosts_to_hostgroup hgStNoHosts "g" ["h1"] =
      (true, hgStNoHosts.applyCall (HG.HGCall.addHosts "g" ["h1"]),
       [HG.HGCall.addHosts "g" ["h1"]]) :=
  ⟨(c8_amended hgStNoHosts hgParamsCreateMissing ["h1"] rfl rfl (by decide)
      rfl rfl (by decide) ⟨"h1", by decide, by decide⟩).1,
   (c8_amended hgStNoHosts hgParamsCreateMissing ["h1"] rfl rfl (by decide)
      rfl rfl (by decide) ⟨"h1", by decide, by decide⟩).2
     hgStNoHosts "g" ["h1"] (by decide) (by decide)⟩
